import Mathlib

/-
Verification development for the packet-analysis core of the repository:
PacketParser (statistics, flows, network graph, timeline) and
ThreatDetector (rule battery, risk scorer), shallowly embedded in Lean.
Numeric fields that are Python floats are idealised as rationals; Python
dicts that preserve insertion order are modelled as association lists.
-/

set_option maxHeartbeats 1000000
set_option maxRecDepth 100000

namespace PacketAnalyzer

/-- Application-layer name-resolution metadata attached to a packet.
Mirrors the queries list extracted from the DNS layer; the answers list is
always left empty by the extractor and never read, so it is omitted. -/
structure DnsInfo where
  queries : List String
  deriving DecidableEq, Repr

/-- One decoded packet record as produced by PacketParser.extract_packet_info.
The payload_preview field is presentation-only and never read by any component
modelled here, so it is omitted.  Optional fields model dict values that the
extractor sets to None when the corresponding layer is absent. -/
structure Packet where
  packet_num : Nat := 0
  timestamp : ℚ := 0
  length : Nat := 0
  protocols : List String := []
  src_ip : Option String := none
  dst_ip : Option String := none
  src_port : Option Nat := none
  dst_port : Option Nat := none
  protocol : Option String := none
  payload_size : Nat := 0
  dns_query : Option DnsInfo := none
  deriving DecidableEq, Repr

/-- Python truthiness of an optional string value: None and the empty string
are falsy. -/
def truthyStr : Option String → Bool
  | none => false
  | some s => s != ""

/-- Python truthiness of an optional numeric value: None and 0 are falsy. -/
def truthyNat : Option Nat → Bool
  | none => false
  | some n => n != 0

/-- Insertion-ordered counter, mirroring collections.Counter and
defaultdict(int): an association list whose keys appear in first-insertion
order and occur at most once. -/
def ctrAdd {α : Type} [DecidableEq α] : List (α × Nat) → α → Nat → List (α × Nat)
  | [], k, n => [(k, n)]
  | (k0, v) :: rest, k, n =>
      if k0 = k then (k0, v + n) :: rest else (k0, v) :: ctrAdd rest k n

/-- Value stored for a key in a counter (0 when absent, as defaultdict(int)). -/
def ctrGet {α : Type} [DecidableEq α] : List (α × Nat) → α → Nat
  | [], _ => 0
  | (k0, v) :: rest, k => if k0 = k then v else ctrGet rest k

/-- Keys of a counter, in insertion order. -/
def ctrKeys {α : Type} (c : List (α × Nat)) : List α := c.map Prod.fst

/-- Python round(x, ndigits) on rationals: round half to even at the given
number of decimal digits. -/
def pyRound (q : ℚ) (ndigits : Nat) : ℚ :=
  let m : ℚ := (10 : ℚ) ^ ndigits
  let x := q * m
  let f : ℤ := ⌊x⌋
  let r := x - (f : ℚ)
  let i : ℤ :=
    if r < 1/2 then f
    else if 1/2 < r then f + 1
    else if f % 2 = 0 then f else f + 1
  (i : ℚ) / m

/-- Strict lexicographic comparison of character lists by code point, the
ordering Python uses to compare the address strings when sorting a flow
key; written as explicit recursion so it evaluates by reduction. -/
def charListLt : List Char → List Char → Bool
  | [], [] => false
  | [], _ :: _ => true
  | _ :: _, [] => false
  | a :: as, b :: bs =>
      if a < b then true
      else if b < a then false
      else charListLt as bs

/-- Strict lexicographic string comparison by code point. -/
def strLt (a b : String) : Bool := charListLt a.data b.data

/-- Canonical bidirectional flow key: the two addresses in sorted order, as
tuple(sorted([src, dst])) in the source ((b, a) exactly when b sorts
strictly before a). -/
def flowKey (a b : String) : String × String :=
  if strLt b a then (b, a) else (a, b)

/-- Flow key of a packet, defined exactly when both endpoint fields are
truthy, mirroring the guard in PacketParser._add_flow. -/
def canonKeyOf (p : Packet) : Option (String × String) :=
  match p.src_ip, p.dst_ip with
  | some s, some d => if s = "" ∨ d = "" then none else some (flowKey s d)
  | _, _ => none

/-- Append a packet to the list held at a key of the flow map, creating the
entry when absent (defaultdict(list) semantics, insertion-ordered). -/
def flowAppend : List ((String × String) × List Packet) → (String × String) → Packet →
    List ((String × String) × List Packet)
  | [], k, p => [(k, [p])]
  | (k0, v) :: rest, k, p =>
      if k0 = k then (k0, v ++ [p]) :: rest else (k0, v) :: flowAppend rest k p

/-- PacketParser._add_flow folded over the packet sequence;
PacketParser.get_flows returns this mapping. -/
def getFlows (ps : List Packet) : List ((String × String) × List Packet) :=
  ps.foldl (fun m p =>
    match canonKeyOf p with
    | some k => flowAppend m k p
    | none => m) []

/-- Lookup in the flow map ([] when the key is absent). -/
def flowFind (m : List ((String × String) × List Packet)) (k : String × String) :
    List Packet :=
  match m with
  | [] => []
  | (k0, v) :: rest => if k0 = k then v else flowFind rest k

/-- Insert into a Python set modelled as a duplicate-free list (only size and
sorted contents of these sets are ever observed). -/
def setInsert {α : Type} [DecidableEq α] (s : List α) (a : α) : List α :=
  if a ∈ s then s else s ++ [a]

/-- Update the value at a key of an insertion-ordered dict, starting from a
default when the key is absent (defaultdict semantics). -/
def alistUpdate {α β : Type} [DecidableEq α] (m : List (α × β)) (k : α) (d : β)
    (f : β → β) : List (α × β) :=
  match m with
  | [] => [(k, f d)]
  | (k0, v) :: rest => if k0 = k then (k0, f v) :: rest else (k0, v) :: alistUpdate rest k d f

/-- Optional lookup in an insertion-ordered dict. -/
def alistFind? {α β : Type} [DecidableEq α] : List (α × β) → α → Option β
  | [], _ => none
  | (k0, v) :: rest, k => if k0 = k then some v else alistFind? rest k

/-- Counter.most_common(n): stable sort by count descending (ties keep
first-insertion order), then take the first n entries. -/
def mostCommon {α : Type} (c : List (α × Nat)) (n : Nat) : List (α × Nat) :=
  (c.mergeSort (fun a b => b.2 ≤ a.2)).take n

/-- Common shape of the counting loops of the source: for each element that
passes a guard, add an amount to the counter entry of its key. -/
def ctrFold {α β : Type} [DecidableEq α] (cond : β → Bool) (key : β → α)
    (amt : β → Nat) (l : List β) : List (α × Nat) :=
  l.foldl (fun c b => if cond b then ctrAdd c (key b) (amt b) else c) []

/-- One entry of the protocol_breakdown mapping: packet count and rounded
percentage for a resolved transport label. -/
structure ProtoEntry where
  count : Nat
  percentage : ℚ
  deriving DecidableEq, Repr

/-- Counter over resolved transport labels: one increment per packet whose
protocol field is truthy (the `if proto:` guard in get_statistics). -/
def protocolCounts (ps : List Packet) : List (String × Nat) :=
  ctrFold (fun p => truthyStr p.protocol) (fun p => p.protocol.getD "") (fun _ => 1) ps

/-- The protocol_breakdown mapping of get_statistics: per truthy transport
label, its count and round(count / total_packets * 100, 1); the denominator
is the raw total packet count, with a zero-total guard yielding 0. -/
def protocolBreakdown (ps : List Packet) : List (String × ProtoEntry) :=
  let total := ps.length
  (protocolCounts ps).map (fun kv =>
    (kv.1, { count := kv.2,
             percentage := if 0 < total then pyRound ((kv.2 : ℚ) / (total : ℚ) * 100) 1 else 0 }))

/-- Raw layer-name frequency across all layers of all packets. -/
def layerProtocols (ps : List Packet) : List (String × Nat) :=
  ps.foldl (fun c p => p.protocols.foldl (fun c2 name => ctrAdd c2 name 1) c) []

/-- Counter of truthy source addresses. -/
def srcIpCounts (ps : List Packet) : List (String × Nat) :=
  ctrFold (fun p => truthyStr p.src_ip) (fun p => p.src_ip.getD "") (fun _ => 1) ps

/-- Counter of truthy destination addresses. -/
def dstIpCounts (ps : List Packet) : List (String × Nat) :=
  ctrFold (fun p => truthyStr p.dst_ip) (fun p => p.dst_ip.getD "") (fun _ => 1) ps

/-- Set of all truthy addresses seen as source or destination. -/
def uniqueIps (ps : List Packet) : List String :=
  ps.foldl (fun s p =>
    let s1 := if truthyStr p.src_ip then setInsert s (p.src_ip.getD "") else s
    if truthyStr p.dst_ip then setInsert s1 (p.dst_ip.getD "") else s1) []

/-- Counter of truthy ports, destination port checked before source port for
each packet, as in get_statistics. -/
def portCounts (ps : List Packet) : List (Nat × Nat) :=
  ps.foldl (fun c p =>
    let c1 := if truthyNat p.dst_port then ctrAdd c (p.dst_port.getD 0) 1 else c
    if truthyNat p.src_port then ctrAdd c1 (p.src_port.getD 0) 1 else c1) []

/-- CaptureStatistics: the dict built by PacketParser.get_statistics for a
nonempty packet sequence. -/
structure CaptureStats where
  total_packets : Nat
  total_size_bytes : Nat
  total_size_mb : ℚ
  average_packet_size : ℚ
  flows_count : Nat
  protocol_breakdown : List (String × ProtoEntry)
  tcp_packets : Nat
  tcp_percentage : ℚ
  udp_packets : Nat
  udp_percentage : ℚ
  icmp_packets : Nat
  icmp_percentage : ℚ
  layer_protocols : List (String × Nat)
  unique_source_ips : Nat
  unique_dest_ips : Nat
  unique_ips_total : Nat
  top_ips_src : List (String × Nat)
  top_ips_dst : List (String × Nat)
  unique_ports : Nat
  top_ports : List (Nat × Nat)
  dns_queries : Nat
  largest_packet : Nat
  smallest_packet : Nat
  deriving DecidableEq, Repr

/-- PacketParser.get_statistics.  The empty-input early return of the bare
dict is modelled as none; a populated CaptureStats is built otherwise. -/
def getStatistics (ps : List Packet) : Option CaptureStats :=
  if ps.isEmpty then none
  else
    let total_packets := ps.length
    let total_size := (ps.map (fun p => p.length)).sum
    let tcp_count := ps.countP (fun p => p.protocol == some "TCP")
    let udp_count := ps.countP (fun p => p.protocol == some "UDP")
    let icmp_count := ps.countP (fun p => p.protocol == some "ICMP")
    some
      { total_packets := total_packets,
        total_size_bytes := total_size,
        total_size_mb := pyRound ((total_size : ℚ) / (1024 * 1024)) 2,
        average_packet_size :=
          if 0 < total_packets then pyRound ((total_size : ℚ) / (total_packets : ℚ)) 2 else 0,
        flows_count := (getFlows ps).length,
        protocol_breakdown := protocolBreakdown ps,
        tcp_packets := tcp_count,
        tcp_percentage :=
          if 0 < total_packets then pyRound ((tcp_count : ℚ) / (total_packets : ℚ) * 100) 1 else 0,
        udp_packets := udp_count,
        udp_percentage :=
          if 0 < total_packets then pyRound ((udp_count : ℚ) / (total_packets : ℚ) * 100) 1 else 0,
        icmp_packets := icmp_count,
        icmp_percentage :=
          if 0 < total_packets then pyRound ((icmp_count : ℚ) / (total_packets : ℚ) * 100) 1 else 0,
        layer_protocols := layerProtocols ps,
        unique_source_ips := (srcIpCounts ps).length,
        unique_dest_ips := (dstIpCounts ps).length,
        unique_ips_total := (uniqueIps ps).length,
        top_ips_src := mostCommon (srcIpCounts ps) 10,
        top_ips_dst := mostCommon (dstIpCounts ps) 10,
        unique_ports := (portCounts ps).length,
        top_ports := mostCommon (portCounts ps) 15,
        dns_queries := ps.countP (fun p => p.dns_query.isSome),
        largest_packet := (ps.map (fun p => p.length)).foldl max 0,
        smallest_packet :=
          match ps.map (fun p => p.length) with
          | [] => 0
          | x :: xs => xs.foldl min x }

/-- Accumulated data for one undirected connection in the network graph. -/
structure ConnData where
  packets : Nat := 0
  protocols : List (Option String × Nat) := []
  size : Nat := 0
  deriving DecidableEq, Repr

/-- Accumulated per-address data in the network graph. -/
structure IpData where
  packets_sent : Nat := 0
  packets_received : Nat := 0
  protocols : List (Option String × Nat) := []
  total_size : Nat := 0
  deriving DecidableEq, Repr

/-- One node of the D3 graph.  The protocols counter is keyed by the
optional protocol field: pkt.get('protocol', 'OTHER') in the source always
finds the key (extract_packet_info stores it, possibly as None), so the
stored optional label is used and the OTHER default is dead code — packets
without a resolved transport label are counted under the None key. -/
structure GraphNode where
  id : String
  packets_sent : Nat
  packets_received : Nat
  total_packets : Nat
  protocols : List (Option String × Nat)
  total_size : Nat
  deriving DecidableEq, Repr

/-- One undirected link of the D3 graph, keyed by the canonical sorted
address pair; protocols keyed like GraphNode.protocols. -/
structure GraphLink where
  source : String
  target : String
  packets : Nat
  size : Nat
  protocols : List (Option String × Nat)
  deriving DecidableEq, Repr

structure NetworkGraphData where
  nodes : List GraphNode
  links : List GraphLink
  deriving DecidableEq, Repr

/-- One step of the connection/ip_stats accumulation loop in
get_network_graph_data. -/
def graphStep (acc : List ((String × String) × ConnData) × List (String × IpData))
    (p : Packet) : List ((String × String) × ConnData) × List (String × IpData) :=
  match p.src_ip, p.dst_ip with
  | some s, some d =>
      if s = "" ∨ d = "" then acc
      else
        let proto := p.protocol
        let conns := alistUpdate acc.1 (flowKey s d) {} (fun c =>
          { packets := c.packets + 1,
            protocols := ctrAdd c.protocols proto 1,
            size := c.size + p.length })
        let ips1 := alistUpdate acc.2 s {} (fun st =>
          { st with packets_sent := st.packets_sent + 1,
                    protocols := ctrAdd st.protocols proto 1,
                    total_size := st.total_size + p.length })
        let ips2 := alistUpdate ips1 d {} (fun st =>
          { st with packets_received := st.packets_received + 1,
                    protocols := ctrAdd st.protocols proto 1,
                    total_size := st.total_size + p.length })
        (conns, ips2)
  | _, _ => acc

/-- PacketParser.get_network_graph_data. -/
def getNetworkGraphData (ps : List Packet) : NetworkGraphData :=
  let acc := ps.foldl graphStep ([], [])
  { nodes := acc.2.filterMap (fun kv =>
      if kv.1 = "" then none
      else some
        { id := kv.1,
          packets_sent := kv.2.packets_sent,
          packets_received := kv.2.packets_received,
          total_packets := kv.2.packets_sent + kv.2.packets_received,
          protocols := kv.2.protocols,
          total_size := kv.2.total_size }),
    links := acc.1.map (fun kv =>
      { source := kv.1.1, target := kv.1.2,
        packets := kv.2.packets, size := kv.2.size,
        protocols := kv.2.protocols }) }

/-- Accumulated data of one time bucket.  The protocols counter here is
string-keyed: the fill loop guards with `if protocol:`, so a None or empty
label contributes packets and size but no protocol entry. -/
structure BucketData where
  packets : Nat := 0
  size : Nat := 0
  protocols : List (String × Nat) := []
  deriving DecidableEq, Repr

/-- One emitted (non-empty) bucket of the timeline. -/
structure TimelineEntry where
  time : ℚ
  timestamp : String
  packets : Nat
  size_kb : ℚ
  protocols : List (String × Nat)
  deriving DecidableEq, Repr

/-- Return value of get_timeline_data.  total_duration is none exactly in
the early returns, where the source dict omits the key. -/
structure TimelineResult where
  timeline : List TimelineEntry
  start_time : ℚ
  end_time : ℚ
  total_duration : Option ℚ
  deriving DecidableEq, Repr

/-- Timestamps that pass the Python truthiness filter (nonzero). -/
def usableTimestamps (ps : List Packet) : List ℚ :=
  ps.filterMap (fun p => if p.timestamp = 0 then none else some p.timestamp)

/-- Minimum of a list of rationals (0 for the empty list, which the caller
rules out). -/
def listMin : List ℚ → ℚ
  | [] => 0
  | x :: xs => xs.foldl min x

/-- Maximum of a list of rationals (0 for the empty list, which the caller
rules out). -/
def listMax : List ℚ → ℚ
  | [] => 0
  | x :: xs => xs.foldl max x

/-- start_time of get_timeline_data: minimum usable timestamp. -/
def captureStart (ps : List Packet) : ℚ := listMin (usableTimestamps ps)

/-- end_time of get_timeline_data: maximum usable timestamp. -/
def captureEnd (ps : List Packet) : ℚ := listMax (usableTimestamps ps)

/-- time_range of get_timeline_data: max(1, end_time - start_time). -/
def timeRange (ps : List Packet) : ℚ := max 1 (captureEnd ps - captureStart ps)

/-- bucket_size of get_timeline_data: max(1, time_range / 100). -/
def bucketSize (ps : List Packet) : ℚ := max 1 (timeRange ps / 100)

/-- Bucket index assigned to a timestamp: int((timestamp - start_time) /
bucket_size); the argument is never below start_time, so int truncation
equals the floor. -/
def bucketIdx (ps : List Packet) (ts : ℚ) : Nat :=
  (⌊(ts - captureStart ps) / bucketSize ps⌋).toNat

/-- The filled bucket dict of get_timeline_data, keyed by bucket index. -/
def bucketsOf (ps : List Packet) : List (Nat × BucketData) :=
  ps.foldl (fun m p =>
    if p.timestamp = 0 then m
    else
      alistUpdate m (bucketIdx ps p.timestamp) {} (fun b =>
        { packets := b.packets + 1,
          size := b.size + p.length,
          protocols :=
            match p.protocol with
            | some lbl => if lbl = "" then b.protocols else ctrAdd b.protocols lbl 1
            | none => b.protocols })) []

/-- Number of allocated bucket indices: int(time_range / bucket_size) + 1,
the size of the range the output loop iterates over. -/
def numAllocatedBuckets (ps : List Packet) : Nat :=
  (⌊timeRange ps / bucketSize ps⌋).toNat + 1

/-- PacketParser.get_timeline_data. -/
def getTimelineData (ps : List Packet) : TimelineResult :=
  if ps.isEmpty then { timeline := [], start_time := 0, end_time := 0, total_duration := none }
  else if (usableTimestamps ps).isEmpty then
    { timeline := [], start_time := 0, end_time := 0, total_duration := none }
  else
    let timeline := (List.range (numAllocatedBuckets ps)).filterMap
      (fun i =>
        match alistFind? (bucketsOf ps) i with
        | some b => some
            { time := captureStart ps + (i : ℚ) * bucketSize ps,
              timestamp := toString (⌊(i : ℚ) * bucketSize ps⌋) ++ "s",
              packets := b.packets,
              size_kb := pyRound ((b.size : ℚ) / 1024) 2,
              protocols := b.protocols }
        | none => none)
    { timeline := timeline, start_time := captureStart ps, end_time := captureEnd ps,
      total_duration := some (pyRound (timeRange ps) 2) }

/-- One threat dict emitted by the rule battery.  Option fields model dict
keys that only some rules set; the free-text description field is
presentation-only prose and is not modelled.  The source field also stands
for the 'source' dict key itself: every rule that includes the key with a
non-None value is modelled with some, and rules that omit the key with none.
(The suspicious-port rule can include the key with value None; _add_threat
then raises an uncaught TypeError and the whole analysis aborts — see
addThreat? and analyze?.) -/
structure ThreatRecord where
  type : String
  severity : String
  source : Option String := none
  destination : Option String := none
  ports_scanned : Option Nat := none
  sample_ports : Option (List Nat) := none
  packet_count : Option Nat := none
  target_port : Option Nat := none
  port_service : Option String := none
  attempt_count : Option Nat := none
  port : Option Nat := none
  port_purpose : Option String := none
  data_size_mb : Option ℚ := none
  query_length : Option Nat := none
  large_packet_count : Option Nat := none
  percentage : Option ℚ := none
  protocol : Option String := none
  source_domain : Option String := none
  deriving DecidableEq, Repr

/-- Oracle abstracting resolve_ip_to_domain: the reverse lookup collapses
every failure (timeout, not-found, any resolution error) to the empty string
inside its own try/except, so its observable behaviour is a total function
from address to string, with "" meaning no name available. -/
def Resolver : Type := String → String

/-- Lookup-and-attach body of _add_threat for a record whose stored source
is an actual address string: resolve it and attach source_domain only when
the lookup yields a truthy (nonempty) name. -/
def attachDomain (resolver : Resolver) (ip : String) (t : ThreatRecord) : ThreatRecord :=
  let domain := resolver ip
  if domain = "" then t else { t with source_domain := some domain }

/-- ThreatDetector._add_threat on a record whose dict includes the 'source'
key.  When the stored value is an address string, the best-effort lookup
runs and the record is appended (enriched on truthy success).  When the
stored value is None — possible only for the suspicious-port rule, whose
dict stores pkt.get('src_ip') unguarded — resolve_ip_to_domain passes None
to socket.gethostbyaddr, which raises TypeError; the except clause catches
only (herror, timeout, OSError), so the exception escapes _add_threat and
aborts the whole analysis: modelled as none. -/
def addThreat? (resolver : Resolver) (t : ThreatRecord) : Option ThreatRecord :=
  match t.source with
  | some ip => some (attachDomain resolver ip t)
  | none => none

/-- The record _add_threat appends on every call of the battery that
returns, with the unchanged record as the value of the raising case.  For
the guarded rules (port_scan, syn_flood, brute_force, data_exfiltration)
the stored source is always a truthy address string, so addThreat? always
succeeds there and this total form is exact; for the rules whose dicts omit
the 'source' key (dns_anomaly volume, unusual_traffic, protocol_anomaly,
modelled source = none) _add_threat performs no lookup and appends the
record unchanged, which the default branch also yields, so it is exact
there too.  Only the suspicious-port rule can store None under the key; on
that raising case this default is not the behaviour of the code — the
fallible pass checkSuspiciousPortsAux? and analyze? are authoritative, and
agree with the total forms on every non-aborting input (analyze?_no_abort). -/
def addThreatNoRaise (resolver : Resolver) (t : ThreatRecord) : ThreatRecord :=
  (addThreat? resolver t).getD t

/-- Enrichment outcome for a given optional source under a given resolver:
some name exactly when the record carries a source and the lookup returns a
nonempty name, otherwise the field stays absent. -/
def enrichedDomain (resolver : Resolver) (src : Option String) : Option String :=
  match src with
  | some ip => if resolver ip = "" then none else some (resolver ip)
  | none => none

/-- Distinct destination ports seen per (source, destination) pair that
passes the truthiness guard of _check_port_scanning (the parallel
src_dst_times map is computed by the source but never read). -/
def portScanPairs (ps : List Packet) : List ((String × String) × List Nat) :=
  ps.foldl (fun m p =>
    if truthyStr p.src_ip && truthyStr p.dst_ip && truthyNat p.dst_port then
      alistUpdate m (p.src_ip.getD "", p.dst_ip.getD "") []
        (fun s => setInsert s (p.dst_port.getD 0))
    else m) []

/-- ThreatDetector._check_port_scanning. -/
def checkPortScanning (resolver : Resolver) (ps : List Packet) : List ThreatRecord :=
  (portScanPairs ps).filterMap (fun kv =>
    if 5 < kv.2.length then
      some (addThreatNoRaise resolver
        { type := "port_scan", severity := "high",
          source := some kv.1.1, destination := some kv.1.2,
          ports_scanned := some kv.2.length,
          sample_ports := some ((kv.2.mergeSort (fun a b => a ≤ b)).take 10) })
    else none)

/-- Guard of the _check_syn_flood counting loop: truthy source address and
protocol label equal to the TCP string. -/
def synCond (p : Packet) : Bool :=
  truthyStr p.src_ip && (p.protocol == some "TCP")

/-- Per-source count of packets whose protocol label equals TCP and whose
source address is truthy (the syn_by_dst map is computed by the source but
never read). -/
def synCounts (ps : List Packet) : List (String × Nat) :=
  ctrFold synCond (fun p => p.src_ip.getD "") (fun _ => 1) ps

/-- The raw syn-flood record built for one (source, count) counter entry. -/
def synRecordOf (kv : String × Nat) : ThreatRecord :=
  { type := "syn_flood", severity := "critical",
    source := some kv.1, packet_count := some kv.2 }

/-- ThreatDetector._check_syn_flood. -/
def checkSynFlood (resolver : Resolver) (ps : List Packet) : List ThreatRecord :=
  (synCounts ps).filterMap (fun kv =>
    if 30 < kv.2 then some (addThreatNoRaise resolver (synRecordOf kv)) else none)

/-- Fixed well-known-service table of _check_brute_force. -/
def servicePorts : List (Nat × String) :=
  [(22, "SSH"), (3389, "RDP"), (21, "FTP"), (445, "SMB"), (139, "NetBIOS")]

/-- Per-(source, service-port) attempt counts of _check_brute_force; a None
destination port fails the dict-membership test. -/
def bruteCounts (ps : List Packet) : List ((String × Nat) × Nat) :=
  ctrFold
    (fun p =>
      match p.dst_port with
      | some dport => (alistFind? servicePorts dport).isSome && truthyStr p.src_ip
      | none => false)
    (fun p => (p.src_ip.getD "", p.dst_port.getD 0)) (fun _ => 1) ps

/-- ThreatDetector._check_brute_force. -/
def checkBruteForce (resolver : Resolver) (ps : List Packet) : List ThreatRecord :=
  (bruteCounts ps).filterMap (fun kv =>
    if 10 < kv.2 then
      some (addThreatNoRaise resolver
        { type := "brute_force", severity := "high", source := some kv.1.1,
          target_port := some kv.1.2,
          port_service := some ((alistFind? servicePorts kv.1.2).getD ("Port " ++ toString kv.1.2)),
          attempt_count := some kv.2 })
    else none)

/-- Fixed suspicious-port table of ThreatDetector. -/
def suspiciousPorts : List (Nat × String) :=
  [(4444, "Remote shell"), (5555, "Reverse shell"), (6666, "IRC botnet"),
   (8888, "Remote access"), (31337, "Leet backdoor"), (6379, "Redis exploit"),
   (8080, "Common proxy/backdoor"), (9999, "Arbitrary service")]

/-- The raw suspicious-port record built for a packet (before enrichment). -/
def susRecord (p : Packet) (dport : Nat) (purpose : String) : ThreatRecord :=
  { type := "suspicious_port", severity := "high", source := p.src_ip,
    destination := p.dst_ip, port := some dport, port_purpose := some purpose }

/-- Deduplication key of the suspicious-port rule. -/
def susKey (p : Packet) (dport : Nat) : Option String × Option String × Nat :=
  (p.src_ip, p.dst_ip, dport)

/-- Single pass of _check_suspicious_ports with its explicit seen set. -/
def checkSuspiciousPortsAux (resolver : Resolver)
    (seen : List (Option String × Option String × Nat))
    (acc : List ThreatRecord) : List Packet → List ThreatRecord
  | [] => acc
  | p :: rest =>
      match p.dst_port with
      | some dport =>
          match alistFind? suspiciousPorts dport with
          | some purpose =>
              if susKey p dport ∈ seen then
                checkSuspiciousPortsAux resolver seen acc rest
              else
                checkSuspiciousPortsAux resolver (susKey p dport :: seen)
                  (acc ++ [addThreatNoRaise resolver (susRecord p dport purpose)]) rest
          | none => checkSuspiciousPortsAux resolver seen acc rest
      | none => checkSuspiciousPortsAux resolver seen acc rest

/-- ThreatDetector._check_suspicious_ports: the emitted records of the pass;
on an input containing a table-port packet without a source address the code
raises inside _add_threat instead of completing — the fallible form
checkSuspiciousPortsAux? below is authoritative there and agrees with this
total form on every completing input. -/
def checkSuspiciousPorts (resolver : Resolver) (ps : List Packet) : List ThreatRecord :=
  checkSuspiciousPortsAux resolver [] [] ps

/-- Single pass of _check_suspicious_ports with the raising case of
_add_threat modelled: a new deduplication key whose packet has no source
address submits a record storing None to addThreat?, the uncaught TypeError
aborts the pass, and no threat list is produced (none). -/
def checkSuspiciousPortsAux? (resolver : Resolver)
    (seen : List (Option String × Option String × Nat))
    (acc : List ThreatRecord) : List Packet → Option (List ThreatRecord)
  | [] => some acc
  | p :: rest =>
      match p.dst_port with
      | some dport =>
          match alistFind? suspiciousPorts dport with
          | some purpose =>
              if susKey p dport ∈ seen then
                checkSuspiciousPortsAux? resolver seen acc rest
              else
                match addThreat? resolver (susRecord p dport purpose) with
                | some t =>
                    checkSuspiciousPortsAux? resolver (susKey p dport :: seen)
                      (acc ++ [t]) rest
                | none => none
          | none => checkSuspiciousPortsAux? resolver seen acc rest
      | none => checkSuspiciousPortsAux? resolver seen acc rest

/-- ThreatDetector._check_suspicious_ports with the raising case modelled. -/
def checkSuspiciousPorts? (resolver : Resolver) (ps : List Packet) :
    Option (List ThreatRecord) :=
  checkSuspiciousPortsAux? resolver [] [] ps

/-- A packet on which the suspicious-port rule hands _add_threat a record
that stores None under the 'source' key: destination port in the fixed
table and no source address.  The first such packet in an input makes the
analysis raise (its deduplication key cannot already be seen, because any
earlier packet with the same source-less key would itself have raised). -/
def susNoneSource (p : Packet) : Bool :=
  match p.dst_port with
  | some d => (alistFind? suspiciousPorts d).isSome && p.src_ip == none
  | none => false

/-- Cumulative truthy payload bytes per truthy source (_check_data_exfiltration). -/
def exfilData (ps : List Packet) : List (String × Nat) :=
  ctrFold (fun p => truthyStr p.src_ip && (p.payload_size != 0))
    (fun p => p.src_ip.getD "") (fun p => p.payload_size) ps

/-- Outbound packet counts per truthy source (_check_data_exfiltration). -/
def exfilCounts (ps : List Packet) : List (String × Nat) :=
  ctrFold (fun p => truthyStr p.src_ip && (p.payload_size != 0))
    (fun p => p.src_ip.getD "") (fun _ => 1) ps

/-- ThreatDetector._check_data_exfiltration. -/
def checkDataExfiltration (resolver : Resolver) (ps : List Packet) : List ThreatRecord :=
  (exfilData ps).filterMap (fun kv =>
    if 5 * 1024 * 1024 < kv.2 then
      some (addThreatNoRaise resolver
        { type := "data_exfiltration", severity := "high", source := some kv.1,
          data_size_mb := some (pyRound ((kv.2 : ℚ) / (1024 * 1024)) 2),
          packet_count := some (ctrGet (exfilCounts ps) kv.1) })
    else none)

/-- Packets carrying application-layer query metadata (truthy dns_query). -/
def dnsPackets (ps : List Packet) : List Packet :=
  ps.filter (fun p => p.dns_query.isSome)

/-- The (source, query) pairs with query length above 50, collected in
packet order then query order within a packet. -/
def longQueries (ps : List Packet) : List (Option String × String) :=
  (dnsPackets ps).flatMap (fun p =>
    match p.dns_query with
    | some d => d.queries.filterMap (fun q =>
        if 50 < q.length then some (p.src_ip, q) else none)
    | none => [])

/-- ThreatDetector._check_dns_anomalies.  The volume record goes through
_add_threat; the long-query dns_exfiltration records are appended to the
threat list directly in the source, bypassing _add_threat, so they are not
enriched (the dns_by_src map is computed by the source but never read). -/
def checkDnsAnomalies (resolver : Resolver) (ps : List Packet) : List ThreatRecord :=
  let dnsP := dnsPackets ps
  let volume : List ThreatRecord :=
    if 50 < dnsP.length then
      [addThreatNoRaise resolver
        { type := "dns_anomaly", severity := "medium", packet_count := some dnsP.length }]
    else []
  let exfil : List ThreatRecord :=
    ((longQueries ps).take 3).map (fun sq =>
      { type := "dns_exfiltration", severity := "medium", source := sq.1,
        query_length := some sq.2.length })
  volume ++ exfil

/-- ThreatDetector._check_unusual_traffic_volume (the statistics argument is
read for average_packet_size but that value is never used). -/
def checkUnusualTraffic (resolver : Resolver) (ps : List Packet)
    (stats : Option CaptureStats) : List ThreatRecord :=
  if ps.isEmpty then []
  else
    let total := ps.length
    let large := ps.countP (fun p => 1000 < p.length)
    if (total : ℚ) * (8 / 10) < (large : ℚ) then
      [addThreatNoRaise resolver
        { type := "unusual_traffic", severity := "low",
          large_packet_count := some large,
          percentage := some (pyRound ((large : ℚ) / (total : ℚ) * 100) 1) }]
    else []

/-- ThreatDetector._check_protocol_anomalies; the statistics dict passed by
the pipeline may be the bare dict (modelled none), in which case the
protocol_breakdown lookup defaults to empty and the rule emits nothing. -/
def checkProtocolAnomalies (resolver : Resolver) (stats : Option CaptureStats) :
    List ThreatRecord :=
  match stats with
  | none => []
  | some st =>
      let protocols := st.protocol_breakdown
      if protocols.isEmpty then []
      else
        let total := (protocols.map (fun kv => kv.2.count)).sum
        protocols.filterMap (fun kv =>
          let percentage : ℚ := if 0 < total then ((kv.2.count : ℚ) / (total : ℚ)) * 100 else 0
          if kv.1 = "ICMP" ∧ 30 < percentage then
            some (addThreatNoRaise resolver
              { type := "protocol_anomaly", severity := "medium",
                protocol := some kv.1,
                percentage := some (pyRound percentage 1) })
          else none)

/-- Severity weight table of _calculate_risk_score; dict .get default 0 for
any unknown severity string. -/
def severityWeight (s : String) : Nat :=
  if s = "critical" then 100
  else if s = "high" then 40
  else if s = "medium" then 20
  else if s = "low" then 5
  else 0

/-- ThreatDetector._calculate_risk_score: sum of severity weights over the
threat list, clamped to at most 100. -/
def calculateRiskScore (threats : List ThreatRecord) : Nat :=
  min 100 ((threats.map (fun t => severityWeight t.severity)).sum)

/-- ThreatDetector._count_by_severity: the histogram dict starts with the
four fixed keys at 0 and a record increments its key only when the severity
is one of the four. -/
def countBySeverity (threats : List ThreatRecord) : List (String × Nat) :=
  threats.foldl (fun c t =>
    if (alistFind? c t.severity).isSome then ctrAdd c t.severity 1 else c)
    [("critical", 0), ("high", 0), ("medium", 0), ("low", 0)]

/-- Result dict of ThreatDetector.analyze; the threat_summary field is
presentation-only prose and is not modelled. -/
structure AnalysisOutput where
  threats : List ThreatRecord
  risk_score : Nat
  severity_count : List (String × Nat)
  deriving DecidableEq, Repr

/-- ThreatDetector.analyze: the full rule battery in source order, then the
clamped risk score and the severity histogram. -/
def analyze (resolver : Resolver) (ps : List Packet) (stats : Option CaptureStats) :
    AnalysisOutput :=
  let threats :=
    checkPortScanning resolver ps
    ++ checkSynFlood resolver ps
    ++ checkBruteForce resolver ps
    ++ checkSuspiciousPorts resolver ps
    ++ checkDataExfiltration resolver ps
    ++ checkDnsAnomalies resolver ps
    ++ checkUnusualTraffic resolver ps stats
    ++ checkProtocolAnomalies resolver stats
  { threats := threats,
    risk_score := calculateRiskScore threats,
    severity_count := countBySeverity threats }

/-- ThreatDetector.analyze with the uncaught-TypeError path modelled.  The
three checks before the suspicious-port rule always return (their records
store a truthy address string under the 'source' key), the suspicious-port
rule may raise, and when it does the exception escapes analyze so no result
dict is produced (none); the checks after it store a truthy address or omit
the key, so on a completing suspicious-port pass the remaining battery runs
and the result is that of the total form analyze. -/
def analyze? (resolver : Resolver) (ps : List Packet) (stats : Option CaptureStats) :
    Option AnalysisOutput :=
  match checkSuspiciousPorts? resolver ps with
  | none => none
  | some sus =>
      let threats :=
        checkPortScanning resolver ps
        ++ checkSynFlood resolver ps
        ++ checkBruteForce resolver ps
        ++ sus
        ++ checkDataExfiltration resolver ps
        ++ checkDnsAnomalies resolver ps
        ++ checkUnusualTraffic resolver ps stats
        ++ checkProtocolAnomalies resolver stats
      some { threats := threats,
             risk_score := calculateRiskScore threats,
             severity_count := countBySeverity threats }

/-- A threat record with its enrichment field erased; used to state that
the reverse lookup influences nothing but the source_domain field. -/
def stripDomain (t : ThreatRecord) : ThreatRecord := { t with source_domain := none }

/-- Weight table exactly as the specification words it (critical=100,
high=40, medium=20, low=5), kept as a finite table so that the statement of
the risk-score claim does not silently extend it to other strings. -/
def claimWeights : List (String × Nat) :=
  [("critical", 100), ("high", 40), ("medium", 20), ("low", 5)]

/-- Denominator asserted by the specification for protocol percentages:
the count of packets that carry a resolved (truthy) transport label. -/
def labeledPacketCount (ps : List Packet) : Nat :=
  ps.countP (fun p => truthyStr p.protocol)

/-- Count of TCP-labelled packets from a given source, the quantity the
syn-flood rule thresholds (key equality stated exactly as the counter key
is computed). -/
def tcpCountFrom (ps : List Packet) (src : String) : Nat :=
  ps.countP (fun p => synCond p && (p.src_ip.getD "" == src))

/-- Deduplication triple of a packet for the suspicious-port rule, defined
exactly when its destination port is in the fixed table. -/
def susTripleOf (p : Packet) : Option (Option String × Option String × Nat) :=
  match p.dst_port with
  | some d => if (alistFind? suspiciousPorts d).isSome then some (susKey p d) else none
  | none => none

/-- The (source, destination, port) triple carried by an emitted
suspicious-port record. -/
def recTriple (t : ThreatRecord) : Option String × Option String × Option Nat :=
  (t.source, t.destination, t.port)

/-- The record triple corresponding to a deduplication key. -/
def keyImage (k : Option String × Option String × Nat) :
    Option String × Option String × Option Nat :=
  (k.1, k.2.1, some k.2.2)

/-- The seen set accumulated by one pass of the suspicious-port rule over a
packet list, starting from a given seen set. -/
def seenAfter (seen : List (Option String × Option String × Nat))
    (ps : List Packet) : List (Option String × Option String × Nat) :=
  ps.foldl (fun s p =>
    match susTripleOf p with
    | some k => if k ∈ s then s else k :: s
    | none => s) seen

/-- Resolver on which every reverse lookup fails (models timeout,
not-found, or any resolution error, all collapsed to the empty string by
resolve_ip_to_domain). -/
def noResolver : Resolver := fun _ => ""

/-- Resolver on which every reverse lookup succeeds with a fixed name. -/
def constResolver : Resolver := fun _ => "resolved.example"

/-- Witness input: one TCP packet from source S2; 35 copies exceed the
syn-flood threshold. -/
def synPacket : Packet :=
  { src_ip := some "S2", dst_ip := some "D", dst_port := some 1000,
    protocol := some "TCP", length := 100 }

/-- Witness input: 35 TCP-labelled packets from one source. -/
def floodTcp : List Packet := List.replicate 35 synPacket

/-- Counterexample input: the same 35 packets labelled UDP instead of TCP;
they are transport-labelled but the syn-flood rule ignores them. -/
def floodUdp : List Packet := List.replicate 35 { synPacket with protocol := some "UDP" }

/-- The single syn-flood record the battery emits for floodTcp. -/
def synFloodRecord : ThreatRecord :=
  { type := "syn_flood", severity := "critical", source := some "S2",
    packet_count := some 35 }

/-- The breakdown entry recorded for TCP on mixedPackets: count 1 and a
percentage whose denominator is the raw total 2. -/
def tcpEntry : ProtoEntry :=
  { count := 1,
    percentage := pyRound (((1 : Nat) : ℚ) / (((2 : Nat) : Nat) : ℚ) * 100) 1 }

/-- Counterexample input for the protocol-percentage claim: one TCP-labelled
packet and one packet with no resolved transport label. -/
def mixedPackets : List Packet :=
  [{ src_ip := some "a", dst_ip := some "b", protocol := some "TCP", length := 10 },
   { src_ip := some "a", dst_ip := some "b", protocol := none, length := 20 }]

/-- Witness input: a single packet aimed at suspicious port 4444. -/
def susPacket : Packet :=
  { src_ip := some "A", dst_ip := some "B", dst_port := some 4444,
    protocol := some "TCP", length := 60 }

/-- Witness input for the abort path: a packet aimed at suspicious port
4444 with no source address, so the suspicious-port rule stores None under
the 'source' key and _add_threat raises. -/
def susNonePacket : Packet :=
  { dst_ip := some "B", dst_port := some 4444, length := 60 }

/-- Failing input for the graph protocol-label claim: a packet with both
endpoints populated and no resolved transport label. -/
def orphanPacket : Packet :=
  { src_ip := some "10.0.0.5", dst_ip := some "10.0.0.9", protocol := none, length := 64 }

/-- Packet with a 51-character name-resolution query from a populated
source address; triggers only the long-query rule. -/
def longDnsPacket : Packet :=
  { src_ip := some "10.0.0.1",
    dns_query := some { queries := [String.mk (List.replicate 51 'a')] } }

/-- The record the long-query rule emits for longDnsPacket (appended to the
threat list without enrichment). -/
def dnsExfilRecord : ThreatRecord :=
  { type := "dns_exfiltration", severity := "medium", source := some "10.0.0.1",
    query_length := some 51 }

/-- Timed packet used by the timeline witness. -/
def timedPacket (q : ℚ) : Packet :=
  { timestamp := q, length := 100, protocol := some "TCP" }

/-- Witness input: a capture spanning 250 time units (timestamps 1 to 251),
so the claimed bucket width is 2.5. -/
def span250 : List Packet := [timedPacket 1, timedPacket 126, timedPacket 251]

section CounterLemmas

variable {α β : Type} [DecidableEq α]

theorem ctrGet_ctrAdd (c : List (α × Nat)) (k j : α) (n : Nat) :
    ctrGet (ctrAdd c k n) j = if j = k then ctrGet c j + n else ctrGet c j := by
  induction c with
  | nil =>
    by_cases h : j = k
    · subst h; simp [ctrAdd, ctrGet]
    · simp [ctrAdd, ctrGet, h, Ne.symm h]
  | cons hd tl ih =>
    obtain ⟨k0, v⟩ := hd
    by_cases hk : k0 = k
    · subst hk
      by_cases hj : j = k0
      · subst hj; simp [ctrAdd, ctrGet]
      · simp [ctrAdd, ctrGet, hj, Ne.symm hj]
    · by_cases hj : k0 = j
      · subst hj
        have hjk : ¬ (k0 = k) := hk
        simp [ctrAdd, ctrGet, hk, Ne.symm hk]
      · simp [ctrAdd, ctrGet, hk, hj, ih]

theorem mem_ctrKeys_ctrAdd (c : List (α × Nat)) (k j : α) (n : Nat) :
    j ∈ ctrKeys (ctrAdd c k n) ↔ j ∈ ctrKeys c ∨ j = k := by
  induction c with
  | nil => simp [ctrAdd, ctrKeys]
  | cons hd tl ih =>
    obtain ⟨k0, v⟩ := hd
    by_cases hk : k0 = k
    · subst hk; simp [ctrAdd, ctrKeys]; tauto
    · simp only [ctrAdd, if_neg hk, ctrKeys, List.map_cons, List.mem_cons]
      rw [show (List.map Prod.fst (ctrAdd tl k n)) = ctrKeys (ctrAdd tl k n) from rfl, ih]
      simp [ctrKeys]
      tauto

theorem nodup_ctrKeys_ctrAdd (c : List (α × Nat)) (k : α) (n : Nat)
    (h : (ctrKeys c).Nodup) : (ctrKeys (ctrAdd c k n)).Nodup := by
  induction c with
  | nil => simp [ctrAdd, ctrKeys]
  | cons hd tl ih =>
    obtain ⟨k0, v⟩ := hd
    simp only [ctrKeys, List.map_cons, List.nodup_cons] at h
    by_cases hk : k0 = k
    · subst hk
      have hre : ctrAdd ((k0, v) :: tl) k0 n = (k0, v + n) :: tl := by simp [ctrAdd]
      rw [hre]
      simp only [ctrKeys, List.map_cons, List.nodup_cons]
      exact h
    · simp only [ctrAdd, if_neg hk, ctrKeys, List.map_cons, List.nodup_cons]
      constructor
      · intro hmem
        rcases (mem_ctrKeys_ctrAdd tl k k0 n).1 hmem with h1 | h1
        · exact h.1 h1
        · exact hk h1
      · exact ih h.2

theorem ctrGet_eq_of_mem (c : List (α × Nat)) (k : α) (v : Nat)
    (hnd : (ctrKeys c).Nodup) (hmem : (k, v) ∈ c) : ctrGet c k = v := by
  induction c with
  | nil => simp at hmem
  | cons hd tl ih =>
    obtain ⟨k0, v0⟩ := hd
    simp only [ctrKeys, List.map_cons, List.nodup_cons] at hnd
    rcases List.mem_cons.1 hmem with h | h
    · rw [Prod.mk.injEq] at h
      simp [ctrGet, h.1, h.2]
    · have hkeys : k ∈ ctrKeys tl := by
        simpa [ctrKeys] using List.mem_map_of_mem Prod.fst h
      have hne : ¬ (k0 = k) := by
        intro he
        subst he
        exact hnd.1 (by simpa [ctrKeys] using hkeys)
      simp [ctrGet, hne, ih hnd.2 h]

theorem mem_of_ctrKeys (c : List (α × Nat)) (k : α) (h : k ∈ ctrKeys c) :
    (k, ctrGet c k) ∈ c := by
  induction c with
  | nil => simp [ctrKeys] at h
  | cons hd tl ih =>
    obtain ⟨k0, v0⟩ := hd
    by_cases hk : k0 = k
    · subst hk; simp [ctrGet]
    · simp only [ctrKeys, List.map_cons, List.mem_cons] at h
      rcases h with h | h
      · exact absurd h.symm hk
      · simp only [ctrGet, if_neg hk, List.mem_cons]
        exact Or.inr (ih (by simpa [ctrKeys] using h))

theorem ctrGet_foldl (cond : β → Bool) (key : β → α) (amt : β → Nat)
    (l : List β) (c0 : List (α × Nat)) (j : α) :
    ctrGet (l.foldl (fun c b => if cond b then ctrAdd c (key b) (amt b) else c) c0) j
      = ctrGet c0 j + ((l.filter (fun b => cond b && (key b == j))).map amt).sum := by
  induction l generalizing c0 with
  | nil => simp
  | cons b tl ih =>
    simp only [List.foldl_cons, List.filter_cons]
    by_cases hc : cond b
    · by_cases hj : key b = j
      · rw [ih]
        simp [hc, hj, ctrGet_ctrAdd]
        omega
      · rw [ih]
        simp [hc, hj, Ne.symm hj, ctrGet_ctrAdd]
    · rw [ih]
      simp [hc]

theorem mem_ctrKeys_foldl (cond : β → Bool) (key : β → α) (amt : β → Nat)
    (l : List β) (c0 : List (α × Nat)) (j : α) :
    j ∈ ctrKeys (l.foldl (fun c b => if cond b then ctrAdd c (key b) (amt b) else c) c0)
      ↔ j ∈ ctrKeys c0 ∨ ∃ b ∈ l, cond b ∧ key b = j := by
  induction l generalizing c0 with
  | nil => simp
  | cons b tl ih =>
    simp only [List.foldl_cons]
    by_cases hc : cond b
    · simp only [hc, if_pos]
      rw [ih, mem_ctrKeys_ctrAdd]
      simp [hc]
      tauto
    · simp only [hc, if_neg, Bool.false_eq_true, not_false_iff]
      rw [ih]
      simp [hc]

theorem nodup_ctrKeys_foldl (cond : β → Bool) (key : β → α) (amt : β → Nat)
    (l : List β) (c0 : List (α × Nat)) (h : (ctrKeys c0).Nodup) :
    (ctrKeys (l.foldl (fun c b => if cond b then ctrAdd c (key b) (amt b) else c) c0)).Nodup := by
  induction l generalizing c0 with
  | nil => simpa
  | cons b tl ih =>
    simp only [List.foldl_cons]
    by_cases hc : cond b
    · simp only [hc, if_pos]
      exact ih _ (nodup_ctrKeys_ctrAdd _ _ _ h)
    · simp only [hc, if_neg, Bool.false_eq_true, not_false_iff]
      exact ih _ h

theorem ctrGet_ctrFold (cond : β → Bool) (key : β → α) (amt : β → Nat)
    (l : List β) (j : α) :
    ctrGet (ctrFold cond key amt l) j
      = ((l.filter (fun b => cond b && (key b == j))).map amt).sum := by
  simpa [ctrFold, ctrGet] using ctrGet_foldl cond key amt l [] j

theorem ctrGet_ctrFold_count (cond : β → Bool) (key : β → α)
    (l : List β) (j : α) :
    ctrGet (ctrFold cond key (fun _ => 1) l) j
      = l.countP (fun b => cond b && (key b == j)) := by
  rw [ctrGet_ctrFold]
  simp [List.countP_eq_length_filter]

theorem mem_ctrKeys_ctrFold (cond : β → Bool) (key : β → α) (amt : β → Nat)
    (l : List β) (j : α) :
    j ∈ ctrKeys (ctrFold cond key amt l) ↔ ∃ b ∈ l, cond b ∧ key b = j := by
  simpa [ctrFold, ctrKeys] using mem_ctrKeys_foldl cond key amt l [] j

theorem nodup_ctrKeys_ctrFold (cond : β → Bool) (key : β → α) (amt : β → Nat)
    (l : List β) : (ctrKeys (ctrFold cond key amt l)).Nodup := by
  simpa [ctrFold] using nodup_ctrKeys_foldl cond key amt l [] (by simp [ctrKeys])

theorem alistFind?_alistUpdate {γ : Type} (m : List (α × γ)) (k j : α) (d : γ)
    (f : γ → γ) :
    alistFind? (alistUpdate m k d f) j =
      if j = k then some (f ((alistFind? m k).getD d)) else alistFind? m j := by
  induction m with
  | nil =>
    by_cases h : j = k
    · subst h; simp [alistUpdate, alistFind?]
    · simp [alistUpdate, alistFind?, h, Ne.symm h]
  | cons hd tl ih =>
    obtain ⟨k0, v⟩ := hd
    by_cases hk : k0 = k
    · subst hk
      by_cases hj : j = k0
      · subst hj; simp [alistUpdate, alistFind?]
      · simp [alistUpdate, alistFind?, hj, Ne.symm hj]
    · by_cases hj : k0 = j
      · subst hj
        simp [alistUpdate, alistFind?, hk, Ne.symm hk]
      · simp [alistUpdate, alistFind?, hk, hj, ih]

end CounterLemmas

section FlowLemmas

theorem flowFind_flowAppend (m : List ((String × String) × List Packet))
    (k j : String × String) (p : Packet) :
    flowFind (flowAppend m k p) j =
      if j = k then flowFind m j ++ [p] else flowFind m j := by
  induction m with
  | nil =>
    by_cases h : j = k
    · subst h; simp [flowAppend, flowFind]
    · simp [flowAppend, flowFind, h, Ne.symm h]
  | cons hd tl ih =>
    obtain ⟨k0, v⟩ := hd
    by_cases hk : k0 = k
    · subst hk
      by_cases hj : j = k0
      · subst hj; simp [flowAppend, flowFind]
      · simp [flowAppend, flowFind, hj, Ne.symm hj]
    · by_cases hj : k0 = j
      · subst hj
        simp [flowAppend, flowFind, hk, Ne.symm hk]
      · simp [flowAppend, flowFind, hk, hj, ih]

theorem mem_keys_flowAppend (m : List ((String × String) × List Packet))
    (k j : String × String) (p : Packet) :
    j ∈ (flowAppend m k p).map Prod.fst ↔ j ∈ m.map Prod.fst ∨ j = k := by
  induction m with
  | nil => simp [flowAppend]
  | cons hd tl ih =>
    obtain ⟨k0, v⟩ := hd
    by_cases hk : k0 = k
    · subst hk; simp [flowAppend]; tauto
    · simp only [flowAppend, if_neg hk, List.map_cons, List.mem_cons]
      rw [show List.map Prod.fst (flowAppend tl k p) =
            (flowAppend tl k p).map Prod.fst from rfl, ih]
      tauto

theorem flowFind_getFlows_aux (ps : List Packet)
    (m : List ((String × String) × List Packet)) (j : String × String) :
    flowFind (ps.foldl (fun m p =>
        match canonKeyOf p with
        | some k => flowAppend m k p
        | none => m) m) j
      = flowFind m j ++ ps.filter (fun p => canonKeyOf p == some j) := by
  induction ps generalizing m with
  | nil => simp
  | cons p tl ih =>
    simp only [List.foldl_cons, List.filter_cons]
    cases hck : canonKeyOf p with
    | none =>
      simp only [hck]
      rw [ih]
      simp [hck]
    | some k =>
      simp only [hck]
      by_cases hj : j = k
      · subst hj
        rw [ih, flowFind_flowAppend]
        simp [hck]
      · rw [ih, flowFind_flowAppend]
        simp [hck, hj, Ne.symm hj]

theorem flowFind_getFlows (ps : List Packet) (j : String × String) :
    flowFind (getFlows ps) j = ps.filter (fun p => canonKeyOf p == some j) := by
  simpa [getFlows, flowFind] using flowFind_getFlows_aux ps [] j

theorem mem_keys_getFlows_aux (ps : List Packet)
    (m : List ((String × String) × List Packet)) (j : String × String) :
    j ∈ ((ps.foldl (fun m p =>
        match canonKeyOf p with
        | some k => flowAppend m k p
        | none => m) m).map Prod.fst)
      ↔ j ∈ m.map Prod.fst ∨ ∃ p ∈ ps, canonKeyOf p = some j := by
  induction ps generalizing m with
  | nil => simp
  | cons p tl ih =>
    simp only [List.foldl_cons]
    cases hck : canonKeyOf p with
    | none =>
      rw [ih]
      simp [hck]
    | some k =>
      rw [ih, mem_keys_flowAppend]
      simp only [List.mem_cons, hck]
      constructor
      · rintro ((h | h) | h)
        · exact Or.inl h
        · exact Or.inr ⟨p, Or.inl rfl, by rw [hck, h]⟩
        · rcases h with ⟨q, hq, hcq⟩
          exact Or.inr ⟨q, Or.inr hq, hcq⟩
      · rintro (h | ⟨q, hq | hq, hcq⟩)
        · exact Or.inl (Or.inl h)
        · subst hq
          rw [hck] at hcq
          exact Or.inl (Or.inr (Option.some.inj hcq).symm)
        · exact Or.inr ⟨q, hq, hcq⟩

theorem mem_keys_getFlows (ps : List Packet) (j : String × String) :
    j ∈ (getFlows ps).map Prod.fst ↔ ∃ p ∈ ps, canonKeyOf p = some j := by
  simpa [getFlows] using mem_keys_getFlows_aux ps [] j

theorem charListLt_asymm : ∀ x y : List Char,
    charListLt x y = true → charListLt y x = false
  | [], [] => by simp [charListLt]
  | [], _ :: _ => by simp [charListLt]
  | _ :: _, [] => by simp [charListLt]
  | a :: as, b :: bs => by
    simp only [charListLt]
    intro h
    by_cases hab : a < b
    · simp [hab, lt_asymm hab]
    · by_cases hba : b < a
      · simp [hab, hba] at h
      · simp only [if_neg hab, if_neg hba] at h ⊢
        exact charListLt_asymm as bs h

theorem charListLt_conn : ∀ x y : List Char,
    charListLt x y = false → charListLt y x = false → x = y
  | [], [] => fun _ _ => rfl
  | [], _ :: _ => by simp [charListLt]
  | _ :: _, [] => by simp [charListLt]
  | a :: as, b :: bs => by
    simp only [charListLt]
    intro h1 h2
    by_cases hab : a < b
    · simp [hab] at h1
    · by_cases hba : b < a
      · simp [hba] at h2
      · have heq : a = b := le_antisymm (le_of_not_lt hba) (le_of_not_lt hab)
        subst heq
        simp only [if_neg hab, if_neg hba] at h1 h2
        rw [charListLt_conn as bs h1 h2]

theorem strLt_eq_of_not (a b : String) (h1 : strLt a b = false)
    (h2 : strLt b a = false) : a = b := by
  cases a with
  | mk da =>
    cases b with
    | mk db =>
      have hd : da = db := charListLt_conn da db h1 h2
      rw [hd]

theorem strLt_asymm (a b : String) (h : strLt a b = true) : strLt b a = false :=
  charListLt_asymm a.data b.data h

theorem flowKey_comm (a b : String) : flowKey a b = flowKey b a := by
  unfold flowKey
  cases hab : strLt b a
  · cases hba : strLt a b
    · rw [strLt_eq_of_not a b hba hab]
    · simp
  · rw [strLt_asymm b a hab]
    simp

end FlowLemmas

section ThreatLemmas

theorem addThreatNoRaise_fields (r : Resolver) (t : ThreatRecord) :
    (addThreatNoRaise r t).type = t.type ∧ (addThreatNoRaise r t).severity = t.severity
    ∧ (addThreatNoRaise r t).source = t.source
    ∧ (addThreatNoRaise r t).destination = t.destination
    ∧ (addThreatNoRaise r t).packet_count = t.packet_count
    ∧ (addThreatNoRaise r t).port = t.port
    ∧ (addThreatNoRaise r t).port_purpose = t.port_purpose := by
  cases hs : t.source
  · simp [addThreatNoRaise, addThreat?, hs]
  · simp only [addThreatNoRaise, addThreat?, attachDomain, hs, Option.getD_some]
    split <;> simp [hs]

theorem addThreatNoRaise_source_domain (r : Resolver) (t : ThreatRecord)
    (h : t.source_domain = none) :
    (addThreatNoRaise r t).source_domain = enrichedDomain r t.source := by
  cases hs : t.source
  · simpa [addThreatNoRaise, addThreat?, enrichedDomain, hs] using h
  · simp only [addThreatNoRaise, addThreat?, attachDomain, enrichedDomain, hs,
      Option.getD_some]
    split <;> simp_all

theorem stripDomain_addThreatNoRaise (r : Resolver) (t : ThreatRecord) :
    stripDomain (addThreatNoRaise r t) = stripDomain t := by
  cases hs : t.source
  · simp [addThreatNoRaise, addThreat?, hs]
  · simp only [addThreatNoRaise, addThreat?, attachDomain, hs, Option.getD_some]
    split
    · rfl
    · simp [stripDomain, hs]

theorem stripDomain_severity (t : ThreatRecord) :
    (stripDomain t).severity = t.severity := rfl

theorem map_stripDomain_filterMap {γ : Type} (l : List γ)
    (f g : γ → Option ThreatRecord)
    (h : ∀ a, (f a).map stripDomain = (g a).map stripDomain) :
    (l.filterMap f).map stripDomain = (l.filterMap g).map stripDomain := by
  rw [List.map_filterMap, List.map_filterMap]
  induction l with
  | nil => rfl
  | cons a tl ih => simp only [List.filterMap_cons, h a, ih]

theorem mem_checkPortScanning (r : Resolver) (ps : List Packet)
    (t : ThreatRecord) (h : t ∈ checkPortScanning r ps) :
    t.type = "port_scan" ∧ t.severity = "high"
    ∧ t.source_domain = enrichedDomain r t.source := by
  unfold checkPortScanning at h
  rw [List.mem_filterMap] at h
  obtain ⟨kv, _, hf⟩ := h
  by_cases hc : 5 < kv.2.length
  · rw [if_pos hc] at hf
    obtain rfl := Option.some.inj hf
    refine ⟨(addThreatNoRaise_fields r _).1, (addThreatNoRaise_fields r _).2.1, ?_⟩
    rw [(addThreatNoRaise_fields r _).2.2.1]
    exact addThreatNoRaise_source_domain r _ rfl
  · rw [if_neg hc] at hf; cases hf

theorem mem_checkSynFlood (r : Resolver) (ps : List Packet)
    (t : ThreatRecord) (h : t ∈ checkSynFlood r ps) :
    t.type = "syn_flood" ∧ t.severity = "critical"
    ∧ t.source_domain = enrichedDomain r t.source := by
  unfold checkSynFlood at h
  rw [List.mem_filterMap] at h
  obtain ⟨kv, _, hf⟩ := h
  by_cases hc : 30 < kv.2
  · rw [if_pos hc] at hf
    obtain rfl := Option.some.inj hf
    refine ⟨(addThreatNoRaise_fields r _).1, (addThreatNoRaise_fields r _).2.1, ?_⟩
    rw [(addThreatNoRaise_fields r _).2.2.1]
    exact addThreatNoRaise_source_domain r _ rfl
  · rw [if_neg hc] at hf; cases hf

theorem mem_checkBruteForce (r : Resolver) (ps : List Packet)
    (t : ThreatRecord) (h : t ∈ checkBruteForce r ps) :
    t.type = "brute_force" ∧ t.severity = "high"
    ∧ t.source_domain = enrichedDomain r t.source := by
  unfold checkBruteForce at h
  rw [List.mem_filterMap] at h
  obtain ⟨kv, _, hf⟩ := h
  by_cases hc : 10 < kv.2
  · rw [if_pos hc] at hf
    obtain rfl := Option.some.inj hf
    refine ⟨(addThreatNoRaise_fields r _).1, (addThreatNoRaise_fields r _).2.1, ?_⟩
    rw [(addThreatNoRaise_fields r _).2.2.1]
    exact addThreatNoRaise_source_domain r _ rfl
  · rw [if_neg hc] at hf; cases hf

theorem mem_checkSuspiciousPortsAux (r : Resolver)
    (seen : List (Option String × Option String × Nat))
    (acc : List ThreatRecord) (ps : List Packet) (t : ThreatRecord)
    (h : t ∈ checkSuspiciousPortsAux r seen acc ps) :
    t ∈ acc ∨ ∃ p dport purpose, t = addThreatNoRaise r (susRecord p dport purpose) := by
  induction ps generalizing seen acc with
  | nil => exact Or.inl h
  | cons p tl ih =>
    unfold checkSuspiciousPortsAux at h
    split at h
    · split at h
      · split at h
        · exact ih _ _ h
        · rcases ih _ _ h with hacc | hex
          · rcases List.mem_append.1 hacc with h1 | h1
            · exact Or.inl h1
            · rw [List.mem_singleton] at h1
              exact Or.inr ⟨_, _, _, h1⟩
          · exact Or.inr hex
      · exact ih _ _ h
    · exact ih _ _ h

theorem mem_checkSuspiciousPorts (r : Resolver) (ps : List Packet)
    (t : ThreatRecord) (h : t ∈ checkSuspiciousPorts r ps) :
    t.type = "suspicious_port" ∧ t.severity = "high"
    ∧ t.source_domain = enrichedDomain r t.source := by
  rcases mem_checkSuspiciousPortsAux r [] [] ps t h with h1 | ⟨p, dport, purpose, rfl⟩
  · cases h1
  · refine ⟨(addThreatNoRaise_fields r _).1, (addThreatNoRaise_fields r _).2.1, ?_⟩
    rw [(addThreatNoRaise_fields r _).2.2.1]
    exact addThreatNoRaise_source_domain r _ rfl

theorem mem_checkDataExfiltration (r : Resolver) (ps : List Packet)
    (t : ThreatRecord) (h : t ∈ checkDataExfiltration r ps) :
    t.type = "data_exfiltration" ∧ t.severity = "high"
    ∧ t.source_domain = enrichedDomain r t.source := by
  unfold checkDataExfiltration at h
  rw [List.mem_filterMap] at h
  obtain ⟨kv, _, hf⟩ := h
  by_cases hc : 5 * 1024 * 1024 < kv.2
  · rw [if_pos hc] at hf
    obtain rfl := Option.some.inj hf
    refine ⟨(addThreatNoRaise_fields r _).1, (addThreatNoRaise_fields r _).2.1, ?_⟩
    rw [(addThreatNoRaise_fields r _).2.2.1]
    exact addThreatNoRaise_source_domain r _ rfl
  · rw [if_neg hc] at hf; cases hf

theorem mem_checkDnsAnomalies (r : Resolver) (ps : List Packet)
    (t : ThreatRecord) (h : t ∈ checkDnsAnomalies r ps) :
    (t.type = "dns_anomaly" ∧ t.severity = "medium"
      ∧ t.source_domain = enrichedDomain r t.source)
    ∨ (t.type = "dns_exfiltration" ∧ t.severity = "medium"
      ∧ t.source_domain = none) := by
  unfold checkDnsAnomalies at h
  rcases List.mem_append.1 h with h1 | h1
  · left
    by_cases hc : 50 < (dnsPackets ps).length
    · rw [if_pos hc, List.mem_singleton] at h1
      subst h1
      refine ⟨(addThreatNoRaise_fields r _).1, (addThreatNoRaise_fields r _).2.1, ?_⟩
      rw [(addThreatNoRaise_fields r _).2.2.1]
      exact addThreatNoRaise_source_domain r _ rfl
    · rw [if_neg hc] at h1; cases h1
  · right
    rw [List.mem_map] at h1
    obtain ⟨sq, _, rfl⟩ := h1
    exact ⟨rfl, rfl, rfl⟩

theorem mem_checkUnusualTraffic (r : Resolver) (ps : List Packet)
    (st : Option CaptureStats) (t : ThreatRecord)
    (h : t ∈ checkUnusualTraffic r ps st) :
    t.type = "unusual_traffic" ∧ t.severity = "low"
    ∧ t.source_domain = enrichedDomain r t.source := by
  unfold checkUnusualTraffic at h
  by_cases he : ps.isEmpty
  · rw [if_pos he] at h; cases h
  · rw [if_neg he] at h
    dsimp only at h
    split at h
    · rw [List.mem_singleton] at h
      subst h
      refine ⟨(addThreatNoRaise_fields r _).1, (addThreatNoRaise_fields r _).2.1, ?_⟩
      rw [(addThreatNoRaise_fields r _).2.2.1]
      exact addThreatNoRaise_source_domain r _ rfl
    · cases h

theorem mem_checkProtocolAnomalies (r : Resolver) (st : Option CaptureStats)
    (t : ThreatRecord) (h : t ∈ checkProtocolAnomalies r st) :
    t.type = "protocol_anomaly" ∧ t.severity = "medium"
    ∧ t.source_domain = enrichedDomain r t.source := by
  unfold checkProtocolAnomalies at h
  cases st with
  | none => cases h
  | some s =>
    dsimp only at h
    by_cases he : s.protocol_breakdown.isEmpty
    · rw [if_pos he] at h; cases h
    · rw [if_neg he] at h
      rw [List.mem_filterMap] at h
      obtain ⟨kv, _, hf⟩ := h
      split at hf <;> split at hf <;>
        first
          | (obtain rfl := Option.some.inj hf
             refine ⟨(addThreatNoRaise_fields r _).1, (addThreatNoRaise_fields r _).2.1, ?_⟩
             rw [(addThreatNoRaise_fields r _).2.2.1]
             exact addThreatNoRaise_source_domain r _ rfl)
          | cases hf

end ThreatLemmas

section AnalyzeLemmas

theorem inv_of_rule (r : Resolver) (t : ThreatRecord) (T : String)
    (hT : T ≠ "dns_exfiltration") (ht : t.type = T)
    (hsev : t.severity = "critical" ∨ t.severity = "high"
      ∨ t.severity = "medium" ∨ t.severity = "low")
    (hd : t.source_domain = enrichedDomain r t.source) :
    (t.severity = "critical" ∨ t.severity = "high"
      ∨ t.severity = "medium" ∨ t.severity = "low")
    ∧ (t.type = "dns_exfiltration" → t.source_domain = none)
    ∧ (t.type ≠ "dns_exfiltration" → t.source_domain = enrichedDomain r t.source) :=
  ⟨hsev, fun hdns => absurd (ht.symm.trans hdns) hT, fun _ => hd⟩

theorem mem_analyze_threats_inv (r : Resolver) (ps : List Packet)
    (st : Option CaptureStats) (t : ThreatRecord)
    (h : t ∈ (analyze r ps st).threats) :
    (t.severity = "critical" ∨ t.severity = "high"
      ∨ t.severity = "medium" ∨ t.severity = "low")
    ∧ (t.type = "dns_exfiltration" → t.source_domain = none)
    ∧ (t.type ≠ "dns_exfiltration" → t.source_domain = enrichedDomain r t.source) := by
  unfold analyze at h
  simp only [List.mem_append] at h
  rcases h with ((((((h | h) | h) | h) | h) | h) | h) | h
  · obtain ⟨ht, hs, hd⟩ := mem_checkPortScanning r ps t h
    exact inv_of_rule r t _ (by decide) ht (Or.inr (Or.inl hs)) hd
  · obtain ⟨ht, hs, hd⟩ := mem_checkSynFlood r ps t h
    exact inv_of_rule r t _ (by decide) ht (Or.inl hs) hd
  · obtain ⟨ht, hs, hd⟩ := mem_checkBruteForce r ps t h
    exact inv_of_rule r t _ (by decide) ht (Or.inr (Or.inl hs)) hd
  · obtain ⟨ht, hs, hd⟩ := mem_checkSuspiciousPorts r ps t h
    exact inv_of_rule r t _ (by decide) ht (Or.inr (Or.inl hs)) hd
  · obtain ⟨ht, hs, hd⟩ := mem_checkDataExfiltration r ps t h
    exact inv_of_rule r t _ (by decide) ht (Or.inr (Or.inl hs)) hd
  · rcases mem_checkDnsAnomalies r ps t h with ⟨ht, hs, hd⟩ | ⟨ht, hs, hd⟩
    · exact inv_of_rule r t _ (by decide) ht (Or.inr (Or.inr (Or.inl hs))) hd
    · exact ⟨Or.inr (Or.inr (Or.inl hs)), fun _ => hd, fun hne => absurd ht hne⟩
  · obtain ⟨ht, hs, hd⟩ := mem_checkUnusualTraffic r ps st t h
    exact inv_of_rule r t _ (by decide) ht (Or.inr (Or.inr (Or.inr hs))) hd
  · obtain ⟨ht, hs, hd⟩ := mem_checkProtocolAnomalies r st t h
    exact inv_of_rule r t _ (by decide) ht (Or.inr (Or.inr (Or.inl hs))) hd

theorem alistFind?_isSome_iff {γ : Type} [DecidableEq α] (m : List (α × γ)) (k : α) :
    (alistFind? m k).isSome ↔ k ∈ m.map Prod.fst := by
  induction m with
  | nil => simp [alistFind?]
  | cons hd tl ih =>
    obtain ⟨k0, v⟩ := hd
    by_cases hk : k0 = k
    · subst hk; simp [alistFind?]
    · simp [alistFind?, hk, ih, Ne.symm hk]

theorem ctrKeys_ctrAdd_of_mem [DecidableEq α] (c : List (α × Nat)) (k : α) (n : Nat)
    (h : k ∈ ctrKeys c) : ctrKeys (ctrAdd c k n) = ctrKeys c := by
  induction c with
  | nil => simp [ctrKeys] at h
  | cons hd tl ih =>
    obtain ⟨k0, v⟩ := hd
    by_cases hk : k0 = k
    · subst hk; simp [ctrAdd, ctrKeys]
    · simp only [ctrKeys, List.map_cons, List.mem_cons] at h
      rcases h with h1 | h1
      · exact absurd h1.symm hk
      · simp only [ctrAdd, if_neg hk, ctrKeys, List.map_cons]
        rw [show List.map Prod.fst (ctrAdd tl k n) = ctrKeys (ctrAdd tl k n) from rfl,
          ih (by simpa [ctrKeys] using h1)]
        rfl

theorem ctrValuesSum_ctrAdd [DecidableEq α] (c : List (α × Nat)) (k : α) (n : Nat) :
    ((ctrAdd c k n).map Prod.snd).sum = (c.map Prod.snd).sum + n := by
  induction c with
  | nil => simp [ctrAdd]
  | cons hd tl ih =>
    obtain ⟨k0, v⟩ := hd
    by_cases hk : k0 = k
    · subst hk; simp [ctrAdd]; omega
    · simp [ctrAdd, hk, ih]; omega

theorem sevFold_keys (ts : List ThreatRecord) (c0 : List (String × Nat)) :
    ((ts.foldl (fun c t =>
      if (alistFind? c t.severity).isSome then ctrAdd c t.severity 1 else c) c0).map Prod.fst)
      = c0.map Prod.fst := by
  induction ts generalizing c0 with
  | nil => rfl
  | cons t tl ih =>
    simp only [List.foldl_cons]
    by_cases hc : (alistFind? c0 t.severity).isSome
    · rw [if_pos hc, ih]
      exact ctrKeys_ctrAdd_of_mem c0 t.severity 1 ((alistFind?_isSome_iff c0 t.severity).1 hc)
    · rw [if_neg hc]
      exact ih c0

theorem countBySeverity_keys (ts : List ThreatRecord) :
    (countBySeverity ts).map Prod.fst = ["critical", "high", "medium", "low"] := by
  unfold countBySeverity
  rw [sevFold_keys]
  rfl

theorem sevFold_sum (ts : List ThreatRecord) (c0 : List (String × Nat))
    (h : ∀ t ∈ ts, t.severity ∈ c0.map Prod.fst) :
    (((ts.foldl (fun c t =>
      if (alistFind? c t.severity).isSome then ctrAdd c t.severity 1 else c) c0).map Prod.snd).sum)
      = (c0.map Prod.snd).sum + ts.length := by
  induction ts generalizing c0 with
  | nil => simp
  | cons t tl ih =>
    have hk : t.severity ∈ c0.map Prod.fst := h t (List.mem_cons_self t tl)
    have hsome : (alistFind? c0 t.severity).isSome := (alistFind?_isSome_iff c0 t.severity).2 hk
    simp only [List.foldl_cons, if_pos hsome]
    rw [ih (ctrAdd c0 t.severity 1) (fun u hu => by
      rw [show (ctrAdd c0 t.severity 1).map Prod.fst = ctrKeys (ctrAdd c0 t.severity 1) from rfl,
        ctrKeys_ctrAdd_of_mem c0 t.severity 1 hk]
      exact h u (List.mem_cons_of_mem t hu))]
    rw [ctrValuesSum_ctrAdd]
    simp [List.length_cons]
    omega

theorem countBySeverity_sum (ts : List ThreatRecord)
    (h : ∀ t ∈ ts, t.severity = "critical" ∨ t.severity = "high"
      ∨ t.severity = "medium" ∨ t.severity = "low") :
    ((countBySeverity ts).map Prod.snd).sum = ts.length := by
  unfold countBySeverity
  rw [sevFold_sum]
  · simp
  · intro t ht
    rcases h t ht with hs | hs | hs | hs <;> simp [hs]

theorem calculateRiskScore_le (ts : List ThreatRecord) : calculateRiskScore ts ≤ 100 :=
  min_le_left _ _

theorem calculateRiskScore_critical (ts : List ThreatRecord)
    (h : ∃ t ∈ ts, t.severity = "critical") : calculateRiskScore ts = 100 := by
  obtain ⟨t, ht, hs⟩ := h
  unfold calculateRiskScore
  have h100 : (100 : Nat) ∈ ts.map (fun t => severityWeight t.severity) :=
    List.mem_map.2 ⟨t, ht, by rw [hs]; rfl⟩
  have hle : 100 ≤ (ts.map (fun t => severityWeight t.severity)).sum :=
    List.single_le_sum (fun x _ => Nat.zero_le x) _ h100
  exact min_eq_left hle

theorem riskScore_congr_strip (ts ts0 : List ThreatRecord)
    (h : ts.map stripDomain = ts0.map stripDomain) :
    calculateRiskScore ts = calculateRiskScore ts0 := by
  unfold calculateRiskScore
  have h2 : ts.map (fun t => severityWeight t.severity)
      = ts0.map (fun t => severityWeight t.severity) := by
    calc ts.map (fun t => severityWeight t.severity)
        = (ts.map stripDomain).map (fun t => severityWeight t.severity) := by
          rw [List.map_map]; rfl
      _ = (ts0.map stripDomain).map (fun t => severityWeight t.severity) := by rw [h]
      _ = ts0.map (fun t => severityWeight t.severity) := by rw [List.map_map]; rfl
  rw [h2]

theorem strip_checkPortScanning (r r0 : Resolver) (ps : List Packet) :
    (checkPortScanning r ps).map stripDomain = (checkPortScanning r0 ps).map stripDomain := by
  unfold checkPortScanning
  apply map_stripDomain_filterMap
  intro kv
  split_ifs <;> simp [stripDomain_addThreatNoRaise]

theorem strip_checkSynFlood (r r0 : Resolver) (ps : List Packet) :
    (checkSynFlood r ps).map stripDomain = (checkSynFlood r0 ps).map stripDomain := by
  unfold checkSynFlood
  apply map_stripDomain_filterMap
  intro kv
  split_ifs <;> simp [stripDomain_addThreatNoRaise]

theorem strip_checkBruteForce (r r0 : Resolver) (ps : List Packet) :
    (checkBruteForce r ps).map stripDomain = (checkBruteForce r0 ps).map stripDomain := by
  unfold checkBruteForce
  apply map_stripDomain_filterMap
  intro kv
  split_ifs <;> simp [stripDomain_addThreatNoRaise]

theorem strip_checkDataExfiltration (r r0 : Resolver) (ps : List Packet) :
    (checkDataExfiltration r ps).map stripDomain
      = (checkDataExfiltration r0 ps).map stripDomain := by
  unfold checkDataExfiltration
  apply map_stripDomain_filterMap
  intro kv
  split_ifs <;> simp [stripDomain_addThreatNoRaise]

theorem strip_checkSuspiciousPortsAux (r r0 : Resolver) (ps : List Packet) :
    ∀ (seen : List (Option String × Option String × Nat))
      (acc acc0 : List ThreatRecord),
    acc.map stripDomain = acc0.map stripDomain →
    (checkSuspiciousPortsAux r seen acc ps).map stripDomain
      = (checkSuspiciousPortsAux r0 seen acc0 ps).map stripDomain := by
  induction ps with
  | nil =>
    intro seen acc acc0 h
    simpa [checkSuspiciousPortsAux] using h
  | cons p tl ih =>
    intro seen acc acc0 h
    unfold checkSuspiciousPortsAux
    cases hdp : p.dst_port with
    | none => simp only [hdp]; exact ih _ _ _ h
    | some dport =>
      simp only [hdp]
      cases hfd : alistFind? suspiciousPorts dport with
      | none => simp only [hfd]; exact ih _ _ _ h
      | some purpose =>
        simp only [hfd]
        by_cases hs : susKey p dport ∈ seen
        · simp only [if_pos hs]; exact ih _ _ _ h
        · simp only [if_neg hs]
          apply ih
          simp [h, stripDomain_addThreatNoRaise]

theorem strip_checkSuspiciousPorts (r r0 : Resolver) (ps : List Packet) :
    (checkSuspiciousPorts r ps).map stripDomain
      = (checkSuspiciousPorts r0 ps).map stripDomain :=
  strip_checkSuspiciousPortsAux r r0 ps [] [] [] rfl

theorem strip_checkDnsAnomalies (r r0 : Resolver) (ps : List Packet) :
    (checkDnsAnomalies r ps).map stripDomain
      = (checkDnsAnomalies r0 ps).map stripDomain := by
  unfold checkDnsAnomalies
  dsimp only
  rw [List.map_append, List.map_append]
  congr 1

theorem strip_checkUnusualTraffic (r r0 : Resolver) (ps : List Packet)
    (st : Option CaptureStats) :
    (checkUnusualTraffic r ps st).map stripDomain
      = (checkUnusualTraffic r0 ps st).map stripDomain := by
  unfold checkUnusualTraffic
  by_cases he : ps.isEmpty
  · simp [he]
  · simp only [if_neg he, apply_ite (List.map stripDomain)]
    split <;> simp [stripDomain_addThreatNoRaise]

theorem strip_checkProtocolAnomalies (r r0 : Resolver) (st : Option CaptureStats) :
    (checkProtocolAnomalies r st).map stripDomain
      = (checkProtocolAnomalies r0 st).map stripDomain := by
  unfold checkProtocolAnomalies
  cases st with
  | none => rfl
  | some s =>
    dsimp only
    split_ifs with he
    · rfl
    all_goals
      apply map_stripDomain_filterMap
      intro kv
      split_ifs <;> simp [stripDomain_addThreatNoRaise]

theorem strip_analyze (r r0 : Resolver) (ps : List Packet) (st : Option CaptureStats) :
    ((analyze r ps st).threats).map stripDomain
      = ((analyze r0 ps st).threats).map stripDomain := by
  unfold analyze
  simp only [List.map_append]
  rw [strip_checkPortScanning r r0, strip_checkSynFlood r r0,
    strip_checkBruteForce r r0, strip_checkSuspiciousPorts r r0,
    strip_checkDataExfiltration r r0, strip_checkDnsAnomalies r r0,
    strip_checkUnusualTraffic r r0, strip_checkProtocolAnomalies r r0]

end AnalyzeLemmas

section AbortLemmas

theorem addThreat?_some (r : Resolver) (t : ThreatRecord) (ip : String)
    (h : t.source = some ip) : addThreat? r t = some (attachDomain r ip t) := by
  simp [addThreat?, h]

theorem addThreat?_none (r : Resolver) (t : ThreatRecord)
    (h : t.source = none) : addThreat? r t = none := by
  simp [addThreat?, h]

theorem checkSuspiciousPortsAux?_eq_total (r : Resolver) :
    ∀ ps : List Packet, (∀ p ∈ ps, susNoneSource p = false) →
    ∀ seen acc, checkSuspiciousPortsAux? r seen acc ps
      = some (checkSuspiciousPortsAux r seen acc ps) := by
  intro ps
  induction ps with
  | nil => intro _ seen acc; rfl
  | cons p tl ih =>
    intro hna seen acc
    have hp := hna p (List.mem_cons_self p tl)
    have htl := fun q hq => hna q (List.mem_cons_of_mem p hq)
    simp only [checkSuspiciousPortsAux?, checkSuspiciousPortsAux]
    cases hdp : p.dst_port with
    | none => simp only [hdp]; exact ih htl _ _
    | some dport =>
      simp only [hdp]
      cases hfd : alistFind? suspiciousPorts dport with
      | none => simp only [hfd]; exact ih htl _ _
      | some purpose =>
        simp only [hfd]
        by_cases hs : susKey p dport ∈ seen
        · simp only [if_pos hs]; exact ih htl _ _
        · simp only [if_neg hs]
          have hsrc : ∃ ip, p.src_ip = some ip := by
            simp only [susNoneSource, hdp, hfd, Option.isSome_some, Bool.true_and] at hp
            cases hps : p.src_ip with
            | none => rw [hps] at hp; simp at hp
            | some ip => exact ⟨ip, rfl⟩
          obtain ⟨ip, hip⟩ := hsrc
          have hrec : (susRecord p dport purpose).source = some ip := by
            simp [susRecord, hip]
          rw [addThreat?_some r _ ip hrec]
          have htot : addThreatNoRaise r (susRecord p dport purpose)
              = attachDomain r ip (susRecord p dport purpose) := by
            unfold addThreatNoRaise
            rw [addThreat?_some r _ ip hrec]
            rfl
          rw [htot]
          exact ih htl _ _

theorem checkSuspiciousPortsAux?_abort (r : Resolver) :
    ∀ ps : List Packet,
    ∀ (seen : List (Option String × Option String × Nat))
      (acc : List ThreatRecord),
    (∀ k ∈ seen, k.1 ≠ (none : Option String)) →
    (∃ p ∈ ps, susNoneSource p = true) →
    checkSuspiciousPortsAux? r seen acc ps = none := by
  intro ps
  induction ps with
  | nil => intro seen acc _ hex; simp at hex
  | cons p tl ih =>
    intro seen acc hseen hex
    simp only [checkSuspiciousPortsAux?]
    cases hdp : p.dst_port with
    | none =>
      have hex2 : ∃ q ∈ tl, susNoneSource q = true := by
        rcases hex with ⟨q, hq, hqt⟩
        rcases List.mem_cons.1 hq with rfl | hq2
        · simp [susNoneSource, hdp] at hqt
        · exact ⟨q, hq2, hqt⟩
      simp only [hdp]
      exact ih _ _ hseen hex2
    | some dport =>
      simp only [hdp]
      cases hfd : alistFind? suspiciousPorts dport with
      | none =>
        have hex2 : ∃ q ∈ tl, susNoneSource q = true := by
          rcases hex with ⟨q, hq, hqt⟩
          rcases List.mem_cons.1 hq with rfl | hq2
          · simp [susNoneSource, hdp, hfd] at hqt
          · exact ⟨q, hq2, hqt⟩
        simp only [hfd]
        exact ih _ _ hseen hex2
      | some purpose =>
        simp only [hfd]
        cases hips : p.src_ip with
        | none =>
          have hkey : susKey p dport ∉ seen := fun hk =>
            hseen _ hk (by simp [susKey, hips])
          rw [if_neg hkey]
          rw [addThreat?_none r _ (by simp [susRecord, hips])]
        | some ip =>
          have hex2 : ∃ q ∈ tl, susNoneSource q = true := by
            rcases hex with ⟨q, hq, hqt⟩
            rcases List.mem_cons.1 hq with rfl | hq2
            · simp [susNoneSource, hdp, hfd, hips] at hqt
            · exact ⟨q, hq2, hqt⟩
          by_cases hs : susKey p dport ∈ seen
          · rw [if_pos hs]; exact ih _ _ hseen hex2
          · rw [if_neg hs]
            rw [addThreat?_some r _ ip (by simp [susRecord, hips])]
            have hseen2 : ∀ k ∈ susKey p dport :: seen,
                k.1 ≠ (none : Option String) := by
              intro k hk
              rcases List.mem_cons.1 hk with rfl | hk2
              · simp [susKey, hips]
              · exact hseen _ hk2
            exact ih _ _ hseen2 hex2

theorem analyze?_no_abort (r : Resolver) (ps : List Packet)
    (st : Option CaptureStats) (hna : ∀ p ∈ ps, susNoneSource p = false) :
    analyze? r ps st = some (analyze r ps st) := by
  unfold analyze? checkSuspiciousPorts?
  rw [checkSuspiciousPortsAux?_eq_total r ps hna [] []]
  rfl

theorem analyze?_abort_of (r : Resolver) (ps : List Packet)
    (st : Option CaptureStats) (hab : ∃ p ∈ ps, susNoneSource p = true) :
    analyze? r ps st = none := by
  unfold analyze? checkSuspiciousPorts?
  rw [checkSuspiciousPortsAux?_abort r ps [] [] (by simp) hab]

end AbortLemmas

section ClaimC1

/-- C1: for every threat list produced by the full rule battery, the risk
score equals min(100, sum over the records of the claimed severity weights
critical=100, high=40, medium=20, low=5); the score always lies in [0, 100];
and a threat list containing a critical record yields exactly 100. -/
theorem risk_scorer_correct (r : Resolver) (ps : List Packet)
    (st : Option CaptureStats) :
    (analyze r ps st).risk_score
        = min 100 (((analyze r ps st).threats.map
            (fun t => (alistFind? claimWeights t.severity).getD 0)).sum)
    ∧ 0 ≤ (analyze r ps st).risk_score ∧ (analyze r ps st).risk_score ≤ 100
    ∧ ((∃ t ∈ (analyze r ps st).threats, t.severity = "critical")
        → (analyze r ps st).risk_score = 100) := by
  refine ⟨?_, Nat.zero_le _, calculateRiskScore_le _, fun h => calculateRiskScore_critical _ h⟩
  show calculateRiskScore ((analyze r ps st).threats) = _
  unfold calculateRiskScore
  congr 1
  congr 1
  apply List.map_congr_left
  intro t ht
  rcases (mem_analyze_threats_inv r ps st t ht).1 with hs | hs | hs | hs <;>
    simp [hs, severityWeight, claimWeights, alistFind?]

/-- Witness for C1 at a concrete input: 35 TCP packets from one source put
a critical record in the threat list and the risk score is exactly 100. -/
theorem risk_scorer_correct_witness :
    (∃ t ∈ (analyze noResolver floodTcp none).threats, t.severity = "critical")
    ∧ (analyze noResolver floodTcp none).risk_score = 100 := by
  have hex : ∃ t ∈ (analyze noResolver floodTcp none).threats,
      t.severity = "critical" := by decide
  exact ⟨hex, (risk_scorer_correct noResolver floodTcp none).2.2.2 hex⟩

end ClaimC1

section ClaimC2

/-- Counterexample for C2 as stated: on the empty packet sequence
get_statistics does not return a populated CaptureStatistics value at all
(total_packets = 0 included); it returns the bare empty dict, modelled as
none. -/
theorem empty_input_counterexample :
    ¬ ∃ s : CaptureStats, getStatistics [] = some s := by
  rintro ⟨s, hs⟩
  exact Option.noConfusion hs

/-- C2 (amended): the empty packet sequence is processed without error and
yields the empty statistics dict (no fields, modelled none), empty flows,
an empty graph, an empty timeline, an empty threat list, risk score 0 and
an all-zero severity histogram, for every resolver. -/
theorem empty_input_yields_empty_result :
    getStatistics [] = none
    ∧ getFlows [] = []
    ∧ getNetworkGraphData [] = { nodes := [], links := [] }
    ∧ getTimelineData []
        = { timeline := [], start_time := 0, end_time := 0, total_duration := none }
    ∧ ∀ r : Resolver, analyze r [] none =
        { threats := [], risk_score := 0,
          severity_count := [("critical", 0), ("high", 0), ("medium", 0), ("low", 0)] } :=
  ⟨rfl, rfl, rfl, rfl, fun _ => rfl⟩

end ClaimC2

section ClaimC9

/-- C9 (amended): every record of the battery except the directly appended
dns_exfiltration ones carries source_domain equal to the enrichment outcome
for its source (absent on lookup failure, the name on truthy success); the
dns_exfiltration records are never enriched; the resolver influences nothing
but the source_domain fields — a lookup failure as such never alters the
rest of the analysis; but the battery is not abort-free: on an input with no
table-port packet lacking a source address the exception-aware analysis
completes with exactly the total result, while any input containing such a
packet makes _add_threat raise an uncaught TypeError and the analysis
produces no result at all. -/
theorem enrichment_best_effort (r : Resolver) (ps : List Packet)
    (st : Option CaptureStats) :
    (∀ t ∈ (analyze r ps st).threats,
      (t.type = "dns_exfiltration" → t.source_domain = none)
      ∧ (t.type ≠ "dns_exfiltration" → t.source_domain = enrichedDomain r t.source))
    ∧ ((analyze r ps st).threats.map stripDomain
        = (analyze noResolver ps st).threats.map stripDomain)
    ∧ (analyze r ps st).risk_score = (analyze noResolver ps st).risk_score
    ∧ ((∀ p ∈ ps, susNoneSource p = false)
        → analyze? r ps st = some (analyze r ps st))
    ∧ ((∃ p ∈ ps, susNoneSource p = true) → analyze? r ps st = none) := by
  refine ⟨fun t ht => ⟨(mem_analyze_threats_inv r ps st t ht).2.1,
    (mem_analyze_threats_inv r ps st t ht).2.2⟩, strip_analyze r noResolver ps st, ?_,
    fun hna => analyze?_no_abort r ps st hna,
    fun hab => analyze?_abort_of r ps st hab⟩
  show calculateRiskScore _ = calculateRiskScore _
  exact riskScore_congr_strip _ _ (strip_analyze r noResolver ps st)

/-- Counterexample for C9 as stated: under a resolver that succeeds on every
address, the battery still emits a record that carries a source address but
whose enrichment field is absent (the long-query rule appends records
directly, bypassing _add_threat). -/
theorem enrichment_counterexample :
    ∃ t ∈ (analyze constResolver [longDnsPacket] none).threats,
      t.source.isSome ∧ t.source_domain ≠ enrichedDomain constResolver t.source := by
  decide

/-- Witness for C9 at concrete inputs: the dns_exfiltration record emitted
for longDnsPacket is in the threat list with the enrichment field absent;
longDnsPacket is free of source-less table-port packets, so the
exception-aware battery completes with the total result; and the single
source-less suspicious-port packet susNonePacket makes the analysis produce
no result. -/
theorem enrichment_best_effort_witness :
    dnsExfilRecord ∈ (analyze constResolver [longDnsPacket] none).threats
    ∧ dnsExfilRecord.source_domain = none
    ∧ analyze? constResolver [longDnsPacket] none
        = some (analyze constResolver [longDnsPacket] none)
    ∧ analyze? constResolver [susNonePacket] none = none := by
  refine ⟨by decide, ?_, ?_, ?_⟩
  · exact ((enrichment_best_effort constResolver [longDnsPacket] none).1
      dnsExfilRecord (by decide)).1 (by decide)
  · exact (enrichment_best_effort constResolver [longDnsPacket] none).2.2.2.1
      (by decide)
  · exact (enrichment_best_effort constResolver [susNonePacket] none).2.2.2.2
      (by decide)

end ClaimC9

section ClaimC10

/-- C10: every record emitted by the full battery has severity in
critical, high, medium, low; the severity histogram has exactly those
four keys; and its values sum to the number of records. -/
theorem severity_histogram_correct (r : Resolver) (ps : List Packet)
    (st : Option CaptureStats) :
    (∀ t ∈ (analyze r ps st).threats,
      t.severity = "critical" ∨ t.severity = "high"
      ∨ t.severity = "medium" ∨ t.severity = "low")
    ∧ (analyze r ps st).severity_count.map Prod.fst = ["critical", "high", "medium", "low"]
    ∧ ((analyze r ps st).severity_count.map Prod.snd).sum
        = (analyze r ps st).threats.length := by
  refine ⟨fun t ht => (mem_analyze_threats_inv r ps st t ht).1, ?_, ?_⟩
  · exact countBySeverity_keys _
  · exact countBySeverity_sum _ (fun t ht => (mem_analyze_threats_inv r ps st t ht).1)

/-- Witness for C10 at a concrete input: the flood input produces a record
whose severity the theorem places among the four levels, and histogram keys
and sum behave as stated. -/
theorem severity_histogram_correct_witness :
    (synFloodRecord.severity = "critical" ∨ synFloodRecord.severity = "high"
      ∨ synFloodRecord.severity = "medium" ∨ synFloodRecord.severity = "low")
    ∧ (analyze noResolver floodTcp none).severity_count.map Prod.fst
        = ["critical", "high", "medium", "low"]
    ∧ ((analyze noResolver floodTcp none).severity_count.map Prod.snd).sum
        = (analyze noResolver floodTcp none).threats.length :=
  ⟨(severity_histogram_correct noResolver floodTcp none).1 synFloodRecord (by decide),
   (severity_histogram_correct noResolver floodTcp none).2.1,
   (severity_histogram_correct noResolver floodTcp none).2.2⟩

end ClaimC10

section ClaimC3

/-- Counterexample for C3 as stated: in a two-packet capture with one
TCP-labelled and one unlabelled packet, the recorded TCP percentage is 50
(denominator = raw total packet count), while the percentage computed over
packets with a resolved transport label, as the claim words it, would be
100. -/
theorem protocol_breakdown_counterexample :
    (∃ e : ProtoEntry, alistFind? (protocolBreakdown mixedPackets) "TCP" = some e
      ∧ e.count = 1 ∧ e.percentage = 50)
    ∧ labeledPacketCount mixedPackets = 1
    ∧ pyRound ((1 : ℚ) / ((labeledPacketCount mixedPackets : Nat) : ℚ) * 100) 1 = 100
    ∧ (50 : ℚ) ≠ 100 := by
  refine ⟨⟨{ count := 1,
             percentage := pyRound (((1 : Nat) : ℚ) / (((2 : Nat) : Nat) : ℚ) * 100) 1 },
           rfl, rfl, ?_⟩, by decide, ?_, by norm_num⟩
  · show pyRound (((1 : Nat) : ℚ) / (((2 : Nat) : Nat) : ℚ) * 100) 1 = 50
    norm_num [pyRound]
  · have h1 : labeledPacketCount mixedPackets = 1 := by decide
    rw [h1]
    norm_num [pyRound]

/-- C3 (amended): every protocol_breakdown entry counts the packets whose
resolved transport label equals its key, and its percentage is
round(count / total_packets * 100, 1) with the raw total packet count as
denominator; the zero-denominator guard (which would yield 0 rather than an
exception) is unreachable because an entry exists only when some packet
carried its label, so the total is positive. -/
theorem protocol_breakdown_denominator (ps : List Packet) (proto : String)
    (e : ProtoEntry) (h : (proto, e) ∈ protocolBreakdown ps) :
    e.count = ps.countP (fun p => truthyStr p.protocol && (p.protocol.getD "" == proto))
    ∧ 0 < ps.length
    ∧ e.percentage = pyRound ((e.count : ℚ) / (ps.length : ℚ) * 100) 1 := by
  unfold protocolBreakdown at h
  rw [List.mem_map] at h
  obtain ⟨kv, hmem, heq⟩ := h
  rw [Prod.mk.injEq] at heq
  obtain ⟨h1, h2⟩ := heq
  subst h1
  have hcount : ctrGet (protocolCounts ps) kv.1 = kv.2 :=
    ctrGet_eq_of_mem _ _ _
      (nodup_ctrKeys_ctrFold _ _ _ _) (by simpa using hmem)
  have hkey : kv.1 ∈ ctrKeys (protocolCounts ps) := by
    simpa [ctrKeys] using List.mem_map_of_mem Prod.fst hmem
  obtain ⟨p, hp, -, -⟩ := (mem_ctrKeys_ctrFold _ _ _ _ _).1 hkey
  have hpos : 0 < ps.length := List.length_pos.2 (by rintro rfl; cases hp)
  have hcnt : kv.2 = ps.countP
      (fun p => truthyStr p.protocol && (p.protocol.getD "" == kv.1)) := by
    rw [← hcount]
    exact ctrGet_ctrFold_count _ _ _ _
  refine ⟨?_, hpos, ?_⟩
  · rw [← h2]
    exact hcnt
  · rw [← h2]
    simp only [if_pos hpos]

end ClaimC3

section ClaimC4

/-- C4: the flow map key set is exactly the set of canonical sorted
address pairs over packets with both endpoints populated (truthy); the
value at each key is the subsequence, in original order, of the packets
with that canonical pair; a packet lacking either endpoint appears in no
flow; and the canonical key is direction-independent. -/
theorem flow_grouper_partition (ps : List Packet) :
    (∀ k, k ∈ (getFlows ps).map Prod.fst ↔ ∃ p ∈ ps, canonKeyOf p = some k)
    ∧ (∀ k, flowFind (getFlows ps) k = ps.filter (fun p => canonKeyOf p == some k))
    ∧ (∀ p ∈ ps, canonKeyOf p = none → ∀ k, p ∉ flowFind (getFlows ps) k)
    ∧ (∀ a b : String, flowKey a b = flowKey b a) := by
  refine ⟨fun k => mem_keys_getFlows ps k, fun k => flowFind_getFlows ps k, ?_, flowKey_comm⟩
  intro p _ hnone k hmem
  rw [flowFind_getFlows ps k, List.mem_filter, hnone] at hmem
  simpa using hmem.2

/-- Witness for C4 at a concrete input: both characterisations evaluated at
the two-packet example and its canonical key. -/
theorem flow_grouper_partition_witness :
    ((("a", "b") ∈ (getFlows mixedPackets).map Prod.fst
        ↔ ∃ p ∈ mixedPackets, canonKeyOf p = some ("a", "b"))
      ∧ flowFind (getFlows mixedPackets) ("a", "b")
        = mixedPackets.filter (fun p => canonKeyOf p == some ("a", "b")))
    ∧ flowFind (getFlows mixedPackets) ("a", "b") = mixedPackets :=
  ⟨⟨(flow_grouper_partition mixedPackets).1 ("a", "b"),
    (flow_grouper_partition mixedPackets).2.1 ("a", "b")⟩, by decide⟩

end ClaimC4

section ClaimC7

/-- C7 evaluated at the failing input: for a packet with both endpoints and
no resolved transport label, get_network_graph_data records the packet in
the node and edge protocol breakdowns under the absent (None) label — not
under an OTHER sentinel — because pkt.get('protocol', 'OTHER') always finds
the key that extract_packet_info stored, so the OTHER default is dead code. -/
theorem graph_protocol_label_bug :
    (getNetworkGraphData [orphanPacket]).nodes.map (fun n => (n.id, n.protocols))
      = [("10.0.0.5", [(none, 1)]), ("10.0.0.9", [(none, 1)])]
    ∧ (getNetworkGraphData [orphanPacket]).links.map
        (fun l => (l.source, l.target, l.protocols))
      = [("10.0.0.5", "10.0.0.9", [(none, 1)])] :=
  ⟨by decide, by decide⟩

end ClaimC7

section ClaimC3Witness

/-- Witness for C3 at a concrete input: the TCP entry of the two-packet
example is in the breakdown and its count is the number of TCP-labelled
packets. -/
theorem protocol_breakdown_denominator_witness :
    ("TCP", tcpEntry) ∈ protocolBreakdown mixedPackets
    ∧ tcpEntry.count = mixedPackets.countP
        (fun p => truthyStr p.protocol && (p.protocol.getD "" == "TCP")) := by
  have hmem : ("TCP", tcpEntry) ∈ protocolBreakdown mixedPackets :=
    List.mem_singleton.2 rfl
  exact ⟨hmem, (protocol_breakdown_denominator mixedPackets "TCP" _ hmem).1⟩

end ClaimC3Witness

section SynFloodLemmas

theorem ctrGet_eq_zero_of_not_mem {α : Type} [DecidableEq α]
    (c : List (α × Nat)) (k : α) (h : k ∉ ctrKeys c) : ctrGet c k = 0 := by
  induction c with
  | nil => rfl
  | cons hd tl ih =>
    obtain ⟨k0, v⟩ := hd
    simp only [ctrKeys, List.map_cons, List.mem_cons] at h
    push_neg at h
    simp only [ctrGet, if_neg (Ne.symm h.1)]
    exact ih (by simpa [ctrKeys] using h.2)

theorem synFlood_filter (r : Resolver) (c : List (String × Nat))
    (hnd : (ctrKeys c).Nodup) (src : String) :
    ((c.filterMap (fun kv =>
        if 30 < kv.2 then some (addThreatNoRaise r (synRecordOf kv)) else none)).filter
      (fun t => t.source == some src))
      = if 30 < ctrGet c src then [addThreatNoRaise r (synRecordOf (src, ctrGet c src))]
        else [] := by
  induction c with
  | nil => simp [ctrGet]
  | cons hd tl ih =>
    obtain ⟨k, v⟩ := hd
    simp only [ctrKeys, List.map_cons, List.nodup_cons] at hnd
    by_cases hk : k = src
    · subst hk
      have hrest : ctrGet tl k = 0 :=
        ctrGet_eq_zero_of_not_mem tl k (by simpa [ctrKeys] using hnd.1)
      have htail : ((tl.filterMap (fun kv =>
          if 30 < kv.2 then some (addThreatNoRaise r (synRecordOf kv)) else none)).filter
            (fun t => t.source == some k)) = [] := by
        rw [ih hnd.2, hrest]
        norm_num
      have hgetc : ctrGet ((k, v) :: tl) k = v := by simp [ctrGet]
      rw [hgetc]
      by_cases hv : 30 < v
      · rw [List.filterMap_cons_some (by rw [if_pos hv]),
          List.filter_cons_of_pos (by
            rw [(addThreatNoRaise_fields r (synRecordOf (k, v))).2.2.1]
            simp [synRecordOf]),
          htail, if_pos hv]
      · rw [List.filterMap_cons_none (by rw [if_neg hv]), htail, if_neg hv]
    · have hgetc : ctrGet ((k, v) :: tl) src = ctrGet tl src := by
        simp [ctrGet, hk]
      rw [hgetc]
      by_cases hv : 30 < v
      · rw [List.filterMap_cons_some (by rw [if_pos hv]),
          List.filter_cons_of_neg (by
            rw [(addThreatNoRaise_fields r (synRecordOf (k, v))).2.2.1]
            simpa [synRecordOf] using hk)]
        exact ih hnd.2
      · rw [List.filterMap_cons_none (by rw [if_neg hv])]
        exact ih hnd.2

theorem analyze_filter_syn (r : Resolver) (ps : List Packet)
    (st : Option CaptureStats) (q : ThreatRecord → Bool) :
    ((analyze r ps st).threats.filter (fun t => (t.type == "syn_flood") && q t))
      = (checkSynFlood r ps).filter q := by
  have hnil : ∀ (l : List ThreatRecord), (∀ t ∈ l, ¬ t.type = "syn_flood") →
      l.filter (fun t => (t.type == "syn_flood") && q t) = [] := by
    intro l hl
    rw [List.filter_eq_nil]
    intro t ht
    simp [hl t ht]
  unfold analyze
  dsimp only
  simp only [List.filter_append]
  rw [hnil (checkPortScanning r ps)
      (fun t ht => by rw [(mem_checkPortScanning r ps t ht).1]; decide),
    hnil (checkBruteForce r ps)
      (fun t ht => by rw [(mem_checkBruteForce r ps t ht).1]; decide),
    hnil (checkSuspiciousPorts r ps)
      (fun t ht => by rw [(mem_checkSuspiciousPorts r ps t ht).1]; decide),
    hnil (checkDataExfiltration r ps)
      (fun t ht => by rw [(mem_checkDataExfiltration r ps t ht).1]; decide),
    hnil (checkDnsAnomalies r ps)
      (fun t ht => by
        rcases mem_checkDnsAnomalies r ps t ht with ⟨h1, -, -⟩ | ⟨h1, -, -⟩ <;>
          rw [h1] <;> decide),
    hnil (checkUnusualTraffic r ps st)
      (fun t ht => by rw [(mem_checkUnusualTraffic r ps st t ht).1]; decide),
    hnil (checkProtocolAnomalies r st)
      (fun t ht => by rw [(mem_checkProtocolAnomalies r st t ht).1]; decide)]
  simp only [List.append_nil, List.nil_append]
  apply List.filter_congr
  intro t ht
  rw [(mem_checkSynFlood r ps t ht).1]
  simp

end SynFloodLemmas

section ClaimC5

/-- Counterexample for C5 as stated: 35 UDP-labelled (hence
transport-labelled) packets from one source trigger no syn_flood record at
all — the rule counts only packets whose label is exactly TCP. -/
theorem syn_flood_counterexample :
    ((analyze noResolver floodUdp (getStatistics floodUdp)).threats.filter
        (fun t => (t.type == "syn_flood") && (fun _ => true) t)) = [] := by
  rw [analyze_filter_syn]
  rw [show checkSynFlood noResolver floodUdp = [] from by decide]
  rfl

/-- C5 (amended): when a source emits more than 30 packets labelled TCP
(other transport labels do not count), the battery emits exactly one
syn_flood record for that source, with severity critical and packet_count
equal to that TCP-labelled count. -/
theorem syn_flood_rule (r : Resolver) (ps : List Packet)
    (st : Option CaptureStats) (src : String)
    (h : 30 < tcpCountFrom ps src) :
    ((analyze r ps st).threats.filter
        (fun t => (t.type == "syn_flood") && (fun t => t.source == some src) t)).map
      (fun t => (t.severity, t.packet_count))
      = [("critical", some (tcpCountFrom ps src))] := by
  rw [analyze_filter_syn]
  unfold checkSynFlood
  have hget : ctrGet (synCounts ps) src = tcpCountFrom ps src :=
    ctrGet_ctrFold_count _ _ _ _
  rw [synFlood_filter r (synCounts ps) (nodup_ctrKeys_ctrFold _ _ _ _) src, hget,
    if_pos h]
  simp only [List.map_cons, List.map_nil]
  rw [(addThreatNoRaise_fields r _).2.1, (addThreatNoRaise_fields r _).2.2.2.2.1]
  rfl

/-- Witness for C5 at a concrete input: 35 TCP packets from source S2 give
count 35, the hypothesis holds, and the battery emits exactly one critical
syn_flood record with packet_count 35. -/
theorem syn_flood_rule_witness :
    30 < tcpCountFrom floodTcp "S2"
    ∧ tcpCountFrom floodTcp "S2" = 35
    ∧ ((analyze noResolver floodTcp none).threats.filter
        (fun t => (t.type == "syn_flood") && (fun t => t.source == some "S2") t)).map
      (fun t => (t.severity, t.packet_count))
      = [("critical", some (tcpCountFrom floodTcp "S2"))] :=
  ⟨by decide, by decide, syn_flood_rule noResolver floodTcp none "S2" (by decide)⟩

end ClaimC5

section SuspiciousPortLemmas

theorem sus_aux_append (r : Resolver) (ps : List Packet) :
    ∀ (seen : List (Option String × Option String × Nat))
      (a b : List ThreatRecord),
    checkSuspiciousPortsAux r seen (a ++ b) ps
      = a ++ checkSuspiciousPortsAux r seen b ps := by
  induction ps with
  | nil =>
    intro seen a b
    rfl
  | cons p tl ih =>
    intro seen a b
    unfold checkSuspiciousPortsAux
    cases hdp : p.dst_port with
    | none =>
      simp only [hdp]
      exact ih seen a b
    | some d =>
      simp only [hdp]
      cases hfd : alistFind? suspiciousPorts d with
      | none =>
        simp only [hfd]
        exact ih seen a b
      | some purpose =>
        simp only [hfd]
        by_cases hs : susKey p d ∈ seen
        · simp only [if_pos hs]
          exact ih seen a b
        · simp only [if_neg hs]
          rw [List.append_assoc]
          exact ih _ a _

theorem sus_aux_split (r : Resolver) (ps qs : List Packet) :
    ∀ (seen : List (Option String × Option String × Nat))
      (acc : List ThreatRecord),
    checkSuspiciousPortsAux r seen acc (ps ++ qs)
      = checkSuspiciousPortsAux r (seenAfter seen ps)
          (checkSuspiciousPortsAux r seen acc ps) qs := by
  induction ps with
  | nil =>
    intro seen acc
    rfl
  | cons p tl ih =>
    intro seen acc
    rw [List.cons_append]
    simp only [checkSuspiciousPortsAux]
    cases hdp : p.dst_port with
    | none =>
      have hst : susTripleOf p = none := by simp [susTripleOf, hdp]
      have hse : seenAfter seen (p :: tl) = seenAfter seen tl := by
        show List.foldl _ _ (p :: tl) = _
        rw [List.foldl_cons]
        simp only [hst]
        rfl
      simp only [hdp]
      rw [ih seen acc, hse]
    | some d =>
      simp only [hdp]
      cases hfd : alistFind? suspiciousPorts d with
      | none =>
        have hst : susTripleOf p = none := by simp [susTripleOf, hdp, hfd]
        have hse : seenAfter seen (p :: tl) = seenAfter seen tl := by
          show List.foldl _ _ (p :: tl) = _
          rw [List.foldl_cons]
          simp only [hst]
          rfl
        simp only [hfd]
        rw [ih seen acc, hse]
      | some purpose =>
        have hst : susTripleOf p = some (susKey p d) := by simp [susTripleOf, hdp, hfd]
        simp only [hfd]
        by_cases hs : susKey p d ∈ seen
        · have hse : seenAfter seen (p :: tl) = seenAfter seen tl := by
            show List.foldl _ _ (p :: tl) = _
            rw [List.foldl_cons]
            simp only [hst, if_pos hs]
            rfl
          simp only [if_pos hs]
          rw [ih seen acc, hse]
        · have hse : seenAfter seen (p :: tl) = seenAfter (susKey p d :: seen) tl := by
            show List.foldl _ _ (p :: tl) = _
            rw [List.foldl_cons]
            simp only [hst, if_neg hs]
            rfl
          simp only [if_neg hs]
          rw [ih _ _, hse]

theorem seenAfter_mono (ps : List Packet) :
    ∀ (seen : List (Option String × Option String × Nat)) (k : Option String × Option String × Nat),
    k ∈ seen → k ∈ seenAfter seen ps := by
  induction ps with
  | nil =>
    intro seen k h
    exact h
  | cons p tl ih =>
    intro seen k h
    show k ∈ seenAfter _ tl
    cases hst : susTripleOf p with
    | none =>
      apply ih
      simp only [hst]
      exact h
    | some k2 =>
      apply ih
      simp only [hst]
      by_cases hk2 : k2 ∈ seen
      · simpa [if_pos hk2] using h
      · simp only [if_neg hk2]
        exact List.mem_cons_of_mem _ h

theorem mem_seenAfter_of_mem (ps : List Packet) :
    ∀ (seen : List (Option String × Option String × Nat)) (p : Packet)
      (k : Option String × Option String × Nat),
    p ∈ ps → susTripleOf p = some k → k ∈ seenAfter seen ps := by
  induction ps with
  | nil =>
    intro seen p k hp
    cases hp
  | cons p0 tl ih =>
    intro seen p k hp hk
    rcases List.mem_cons.1 hp with h1 | h1
    · subst h1
      show k ∈ seenAfter _ tl
      apply seenAfter_mono
      simp only [hk]
      by_cases hks : k ∈ seen
      · simpa [if_pos hks] using hks
      · simp only [if_neg hks]
        exact List.mem_cons_self _ _
    · exact ih _ p k h1 hk

theorem sus_aux_stable (r : Resolver) (qs : List Packet) :
    ∀ (seen : List (Option String × Option String × Nat))
      (acc : List ThreatRecord),
    (∀ q ∈ qs, ∀ k, susTripleOf q = some k → k ∈ seen) →
    checkSuspiciousPortsAux r seen acc qs = acc := by
  induction qs with
  | nil =>
    intro seen acc _
    rfl
  | cons q tl ih =>
    intro seen acc h
    unfold checkSuspiciousPortsAux
    cases hdp : q.dst_port with
    | none =>
      simp only [hdp]
      exact ih seen acc (fun q2 hq2 => h q2 (List.mem_cons_of_mem q hq2))
    | some d =>
      simp only [hdp]
      cases hfd : alistFind? suspiciousPorts d with
      | none =>
        simp only [hfd]
        exact ih seen acc (fun q2 hq2 => h q2 (List.mem_cons_of_mem q hq2))
      | some purpose =>
        simp only [hfd]
        have hk : susKey q d ∈ seen :=
          h q (List.mem_cons_self q tl) (susKey q d) (by simp [susTripleOf, hdp, hfd])
        rw [if_pos hk]
        exact ih seen acc (fun q2 hq2 => h q2 (List.mem_cons_of_mem q hq2))

theorem keyImage_inj (k1 k2 : Option String × Option String × Nat)
    (h : keyImage k1 = keyImage k2) : k1 = k2 := by
  obtain ⟨a1, b1, c1⟩ := k1
  obtain ⟨a2, b2, c2⟩ := k2
  simpa [keyImage, Prod.ext_iff] using h

theorem sus_aux_nodup (r : Resolver) (ps : List Packet) :
    ∀ (seen : List (Option String × Option String × Nat))
      (acc : List ThreatRecord),
    ((acc.map recTriple).Nodup ∧ ∀ t ∈ acc, ∃ k ∈ seen, recTriple t = keyImage k) →
    ((checkSuspiciousPortsAux r seen acc ps).map recTriple).Nodup := by
  induction ps with
  | nil =>
    intro seen acc h
    exact h.1
  | cons p tl ih =>
    intro seen acc h
    unfold checkSuspiciousPortsAux
    cases hdp : p.dst_port with
    | none =>
      simp only [hdp]
      exact ih seen acc h
    | some d =>
      simp only [hdp]
      cases hfd : alistFind? suspiciousPorts d with
      | none =>
        simp only [hfd]
        exact ih seen acc h
      | some purpose =>
        simp only [hfd]
        by_cases hs : susKey p d ∈ seen
        · simp only [if_pos hs]
          exact ih seen acc h
        · simp only [if_neg hs]
          apply ih
          have hrec : recTriple (addThreatNoRaise r (susRecord p d purpose))
              = keyImage (susKey p d) := by
            unfold recTriple keyImage susKey
            rw [(addThreatNoRaise_fields r _).2.2.1, (addThreatNoRaise_fields r _).2.2.2.1,
              (addThreatNoRaise_fields r _).2.2.2.2.2.1]
            rfl
          constructor
          · rw [List.map_append]
            simp only [List.map_cons, List.map_nil]
            rw [List.nodup_append]
            refine ⟨h.1, List.nodup_singleton _, ?_⟩
            intro x hx hx2
            rw [List.mem_singleton] at hx2
            subst hx2
            rw [List.mem_map] at hx
            obtain ⟨t, ht, hteq⟩ := hx
            obtain ⟨k2, hk2, hk2e⟩ := h.2 t ht
            rw [hrec] at hteq
            exact hs (keyImage_inj _ _ (hteq.symm.trans hk2e) ▸ hk2)
          · intro t ht
            rcases List.mem_append.1 ht with h1 | h1
            · obtain ⟨k2, hk2, hk2e⟩ := h.2 t h1
              exact ⟨k2, List.mem_cons_of_mem _ hk2, hk2e⟩
            · rw [List.mem_singleton] at h1
              subst h1
              exact ⟨susKey p d, List.mem_cons_self _ _, hrec⟩

end SuspiciousPortLemmas

section ClaimC6

/-- C6: the suspicious-port rule emits at most one record per distinct
(source, destination, destination-port) triple (the emitted triples are
duplicate-free); appending packets whose suspicious triple already occurred
in the earlier packets leaves the rule output unchanged; and a single
packet to port 4444 yields exactly one suspicious_port record carrying that
port and the fixed table purpose for 4444. -/
theorem suspicious_port_dedup (r : Resolver) (ps qs : List Packet)
    (h : ∀ q ∈ qs, susTripleOf q = none
        ∨ ∃ p ∈ ps, susTripleOf p = susTripleOf q) :
    checkSuspiciousPorts r (ps ++ qs) = checkSuspiciousPorts r ps
    ∧ ((checkSuspiciousPorts r ps).map recTriple).Nodup
    ∧ ∀ r2 : Resolver,
        (checkSuspiciousPorts r2 [susPacket]).map
          (fun t => (t.type, t.port, t.port_purpose))
          = [("suspicious_port", some 4444, some "Remote shell")] := by
  refine ⟨?_, sus_aux_nodup r ps [] [] (by simp), ?_⟩
  · unfold checkSuspiciousPorts
    rw [sus_aux_split]
    apply sus_aux_stable
    intro q hq k hk
    rcases h q hq with hnone | ⟨p, hp, hpq⟩
    · rw [hnone] at hk
      cases hk
    · exact mem_seenAfter_of_mem ps [] p k hp (hpq.trans hk)
  · intro r2
    have he : checkSuspiciousPorts r2 [susPacket]
        = [addThreatNoRaise r2 (susRecord susPacket 4444 "Remote shell")] := rfl
    rw [he]
    simp only [List.map_cons, List.map_nil]
    rw [(addThreatNoRaise_fields r2 _).1, (addThreatNoRaise_fields r2 _).2.2.2.2.2.1,
      (addThreatNoRaise_fields r2 _).2.2.2.2.2.2]
    rfl

/-- Witness for C6 at a concrete input: five identical extra packets on the
already-seen 4444 triple add no record, and the single-packet run emits the
one expected record. -/
theorem suspicious_port_dedup_witness :
    checkSuspiciousPorts noResolver ([susPacket] ++ List.replicate 5 susPacket)
      = checkSuspiciousPorts noResolver [susPacket]
    ∧ ((checkSuspiciousPorts noResolver [susPacket]).map
        (fun t => (t.type, t.port, t.port_purpose)))
      = [("suspicious_port", some 4444, some "Remote shell")] :=
  ⟨(suspicious_port_dedup noResolver [susPacket] (List.replicate 5 susPacket)
      (by decide)).1,
   (suspicious_port_dedup noResolver [susPacket] (List.replicate 5 susPacket)
      (by decide)).2.2 noResolver⟩

end ClaimC6

section TimelineLemmas

theorem getD_map_packets (x : Option BucketData) :
    ((x.map (fun b => b.packets)).getD 0) = (x.getD {}).packets := by
  cases x <;> rfl

theorem buckets_fold_packets (ps0 : List Packet) (l : List Packet) :
    ∀ (m : List (Nat × BucketData)) (i : Nat),
    ((alistFind? (l.foldl (fun m p =>
        if p.timestamp = 0 then m
        else
          alistUpdate m (bucketIdx ps0 p.timestamp) {} (fun b =>
            { packets := b.packets + 1,
              size := b.size + p.length,
              protocols :=
                match p.protocol with
                | some lbl => if lbl = "" then b.protocols else ctrAdd b.protocols lbl 1
                | none => b.protocols })) m) i).map (fun b => b.packets)).getD 0
      = ((alistFind? m i).map (fun b => b.packets)).getD 0
        + l.countP (fun p => !(p.timestamp == 0) && (bucketIdx ps0 p.timestamp == i)) := by
  induction l with
  | nil =>
    intro m i
    simp
  | cons p tl ih =>
    intro m i
    rw [List.foldl_cons, List.countP_cons]
    by_cases ht : p.timestamp = 0
    · rw [if_pos ht, ih]
      simp [ht]
    · rw [if_neg ht, ih]
      by_cases hi : i = bucketIdx ps0 p.timestamp
      · rw [alistFind?_alistUpdate, if_pos hi]
        have hcond : (!(p.timestamp == 0) && (bucketIdx ps0 p.timestamp == i)) = true := by
          simp [ht, hi.symm]
        rw [hcond, hi]
        simp [getD_map_packets]
        omega
      · rw [alistFind?_alistUpdate, if_neg hi]
        have hcond : (!(p.timestamp == 0) && (bucketIdx ps0 p.timestamp == i)) = false := by
          simp [ht]
          intro hcontra
          exact absurd hcontra.symm hi
        rw [hcond]
        simp

theorem bucketsOf_packets (ps : List Packet) (i : Nat) :
    ((alistFind? (bucketsOf ps) i).map (fun b => b.packets)).getD 0
      = ps.countP (fun p => !(p.timestamp == 0) && (bucketIdx ps p.timestamp == i)) := by
  have h := buckets_fold_packets ps ps [] i
  simpa [bucketsOf, alistFind?] using h

theorem bucketSize_pos (ps : List Packet) : (0 : ℚ) < bucketSize ps :=
  lt_of_lt_of_le one_pos (le_max_left _ _)

theorem bucketSize_eq (ps : List Packet) :
    bucketSize ps = max 1 ((captureEnd ps - captureStart ps) / 100) := by
  unfold bucketSize timeRange
  rcases le_total (captureEnd ps - captureStart ps) 1 with h | h
  · rw [max_eq_left h]
    have h100 : (captureEnd ps - captureStart ps) / 100 ≤ 1 := by
      rw [div_le_one (by norm_num : (0:ℚ) < 100)]
      linarith
    rw [max_eq_left h100, max_eq_left (by norm_num : (1:ℚ)/100 ≤ 1)]
  · rw [max_eq_right h]

theorem bucketIdx_end_lt (ps : List Packet) :
    bucketIdx ps (captureEnd ps) < numAllocatedBuckets ps := by
  unfold bucketIdx numAllocatedBuckets
  have hbs : (0 : ℚ) < bucketSize ps := bucketSize_pos ps
  have hle : captureEnd ps - captureStart ps ≤ timeRange ps := le_max_right _ _
  have hdiv : (captureEnd ps - captureStart ps) / bucketSize ps
      ≤ timeRange ps / bucketSize ps := (div_le_div_right hbs).2 hle
  have hfl : ⌊(captureEnd ps - captureStart ps) / bucketSize ps⌋
      ≤ ⌊timeRange ps / bucketSize ps⌋ := Int.floor_le_floor hdiv
  omega

theorem numAllocatedBuckets_le (ps : List Packet) : numAllocatedBuckets ps ≤ 101 := by
  unfold numAllocatedBuckets
  have hbs : (0 : ℚ) < bucketSize ps := bucketSize_pos ps
  have h2 : timeRange ps / 100 ≤ bucketSize ps := le_max_right _ _
  have h4 : timeRange ps / bucketSize ps ≤ 100 := by
    rw [div_le_iff hbs]
    nlinarith
  have hfl : ⌊timeRange ps / bucketSize ps⌋ ≤ 100 := by
    have h5 := Int.floor_le_floor h4
    simpa using h5
  omega

theorem timeline_length_le (ps : List Packet) :
    (getTimelineData ps).timeline.length ≤ 101 := by
  unfold getTimelineData
  split_ifs
  · simp
  · simp
  · dsimp only
    calc (List.filterMap _ (List.range (numAllocatedBuckets ps))).length
        ≤ (List.range (numAllocatedBuckets ps)).length := List.length_filterMap_le _ _
      _ = numAllocatedBuckets ps := List.length_range _
      _ ≤ 101 := numAllocatedBuckets_le ps

end TimelineLemmas

section ClaimC8

/-- C8: for a packet sequence with at least one usable (nonzero) timestamp,
the bucket width equals max(1, (captureEnd - captureStart) / 100); each
non-empty bucket index holds exactly the packets whose floor-computed index
is that index (and an absent bucket holds none); the index assigned to a
packet timestamped at captureEnd lies inside the allocated range; the
allocated index range 0 .. floor(timeRange / width) has size at most 101;
and the emitted timeline never has more entries than that, so the number of
non-empty buckets never exceeds roughly 100 (at most 101 entries, indices 0
through 100). -/
theorem timeline_bucketizer (ps : List Packet) (h : usableTimestamps ps ≠ []) :
    bucketSize ps = max 1 ((captureEnd ps - captureStart ps) / 100)
    ∧ (∀ i, ((alistFind? (bucketsOf ps) i).map (fun b => b.packets)).getD 0
        = ps.countP (fun p => !(p.timestamp == 0) && (bucketIdx ps p.timestamp == i)))
    ∧ bucketIdx ps (captureEnd ps) < numAllocatedBuckets ps
    ∧ numAllocatedBuckets ps ≤ 101
    ∧ (getTimelineData ps).timeline.length ≤ 101 :=
  ⟨bucketSize_eq ps, fun i => bucketsOf_packets ps i, bucketIdx_end_lt ps,
   numAllocatedBuckets_le ps, timeline_length_le ps⟩

/-- Witness for C8 at a concrete input: the 250-unit capture has usable
timestamps, a bucket width of exactly 2.5, and an emitted timeline of at
most 101 entries. -/
theorem timeline_bucketizer_witness :
    usableTimestamps span250 ≠ []
    ∧ bucketSize span250 = 5 / 2
    ∧ (getTimelineData span250).timeline.length ≤ 101 := by
  have hu : usableTimestamps span250 = [1, 126, 251] := by
    norm_num [usableTimestamps, span250, timedPacket, List.filterMap_cons]
  have hne : usableTimestamps span250 ≠ [] := by
    rw [hu]
    simp
  refine ⟨hne, ?_, (timeline_bucketizer span250 hne).2.2.2.2⟩
  have hstart : captureStart span250 = 1 := by
    unfold captureStart
    rw [hu]
    show min (min 1 126) 251 = 1
    rw [min_eq_left (by norm_num : (1:ℚ) ≤ 126), min_eq_left (by norm_num : (1:ℚ) ≤ 251)]
  have hend : captureEnd span250 = 251 := by
    unfold captureEnd
    rw [hu]
    show max (max 1 126) 251 = 251
    rw [max_eq_right (by norm_num : (1:ℚ) ≤ 126), max_eq_right (by norm_num : (126:ℚ) ≤ 251)]
  rw [(timeline_bucketizer span250 hne).1, hstart, hend,
    show ((251:ℚ) - 1) / 100 = 5/2 by norm_num,
    max_eq_right (by norm_num : (1:ℚ) ≤ 5/2)]

end ClaimC8

end PacketAnalyzer
